import Mathlib

/-!
Verification of the xaml2svg converter (`src/xaml2svg/__main__.py`).

The Python module converts WPF ResourceDictionary DrawingImage icons to SVG
documents.  This file gives a shallow embedding of the module:

* XML elements (both the XAML input and the SVG output handled by
  `xml.etree.ElementTree`) are modelled by `XElem`, a tree of tag,
  attribute list and child list.  Attribute values are strings, as in XML.
* Python exceptions (KeyError, IndexError, TypeError, ValueError) are
  modelled with `Except String`; an uncaught exception aborts the run.
* Python floats only ever hold short decimal values here (opacity strings
  such as "0.5"); they are modelled exactly by `Dec`, a decimal
  mantissa/exponent pair, and by `ℚ` in specification statements.  All the
  decimals that occur are far from the necessary rounding boundaries, so
  exact arithmetic agrees with double arithmetic on them.
* The mutating tree construction of the source (ElementTree `SubElement`)
  is modelled functionally: each converter returns the element(s) the
  source would have appended to its output parent.  A second, store-based
  embedding of `walk` (`walkH` below) makes the mutation explicit for the
  frame-condition claim.
-/

/- ===== Namespace and tag constants (lines 15-57 of the source) ===== -/

def NS_ROOT : String := "http://schemas.microsoft.com/winfx/2006/xaml/presentation"

def NS_KEYS : String := "http://schemas.microsoft.com/winfx/2006/xaml"

/-- The qualified-name pattern of the source, like `\x7bNS\x7dTag`. -/
def qn (ns tag : String) : String := "\x7b" ++ ns ++ "\x7d" ++ tag

def ATTR_KEY : String := qn NS_KEYS "Key"

def ATTR_X : String := "X"

def ATTR_Y : String := "Y"

def ATTR_ANGLE : String := "Angle"

def ATTR_RECT : String := "Rect"

def ATTR_GEOMETRY : String := "Geometry"

def ATTR_BRUSH : String := "Brush"

def ATTR_COLOR : String := "Color"

def ATTR_OPACITY : String := "Opacity"

def ATTR_CENTER : String := "Center"

def ATTR_RADIUS_X : String := "RadiusX"

def ATTR_RADIUS_Y : String := "RadiusY"

def ELEM_DRAWING_IMAGE : String := qn NS_ROOT "DrawingImage"

def ELEM_DRAWING_IMAGE_DRAWING : String := qn NS_ROOT "DrawingImage.Drawing"

def ELEM_DRAWING_GROUP : String := qn NS_ROOT "DrawingGroup"

def ELEM_DRAWING_GROUP_TRANSFORM : String := ELEM_DRAWING_GROUP ++ ".Transform"

def ELEM_TRANSFORM_GROUP : String := qn NS_ROOT "TransformGroup"

def ELEM_TRANSFORM_ROTATE : String := qn NS_ROOT "RotateTransform"

def ELEM_TRANSFORM_TRANSLATE : String := qn NS_ROOT "TranslateTransform"

def ELEM_GEOMETRY_DRAWING : String := qn NS_ROOT "GeometryDrawing"

def ELEM_GEOMETRY_DRAWING_BRUSH : String := ELEM_GEOMETRY_DRAWING ++ "." ++ ATTR_BRUSH

def ELEM_GEOMETRY_DRAWING_GEOMETRY : String := ELEM_GEOMETRY_DRAWING ++ "." ++ ATTR_GEOMETRY

def ELEM_ELLIPSE : String := qn NS_ROOT "EllipseGeometry"

def ELEM_RECTANGLE : String := qn NS_ROOT "RectangleGeometry"

def ELEM_GEOMETRY_GROUP : String := qn NS_ROOT "GeometryGroup"

def ELEM_SOLID_COLOR_BRUSH : String := qn NS_ROOT "SolidColorBrush"

def NO_COLOR : String := "none"

def FULL_OPACITY : String := "1"

/- ===== Python string and number primitives used by the module ===== -/

/-- Python `str.lower()` (the strings handled here are ASCII). -/
def lowerStr (s : String) : String := String.mk (s.data.map Char.toLower)

/-- Python `str.startswith('#')`. -/
def startsHash (s : String) : Bool :=
  match s.data with
  | c :: _ => c == '#'
  | [] => false

/-- Python `str.endswith(suf)`. -/
def strEndsWith (s suf : String) : Bool := suf.data.isSuffixOf s.data

/-- Python `s.removeprefix(p)` (used on inline path data with p = "F1 "). -/
def removePre (s p : String) : String :=
  if p.data.isPrefixOf s.data then String.mk (s.data.drop p.data.length) else s

/-- Helper of `splitComma`: accumulates the current field in reverse. -/
def splitCommaAux : List Char → List Char → List (List Char)
  | [], acc => [acc.reverse]
  | c :: rest, acc =>
    if c = ',' then acc.reverse :: splitCommaAux rest [] else splitCommaAux rest (c :: acc)

/-- Python `str.split(',')`: every comma separates fields, empty fields kept. -/
def splitComma (s : String) : List String := (splitCommaAux s.data []).map String.mk

/-- Python 2-target unpacking `a, b = s.split(',')`: exactly two fields or ValueError. -/
def split2 (s : String) : Except String (String × String) :=
  match splitComma s with
  | [a, b] => .ok (a, b)
  | _ => .error "ValueError: unpack"

/-- Python 4-target unpacking `x, y, w, h = s` where `s` is a STRING: iterating a
string yields its characters, so the string must have exactly four characters,
otherwise ValueError.  (This is what line 193 of the source actually does: the
`.split(',')` call is missing there.) -/
def strUnpack4 (s : String) : Except String (Char × Char × Char × Char) :=
  match s.data with
  | [a, b, c, d] => .ok (a, b, c, d)
  | _ => .error "ValueError: unpack"

/-- Python 3 ordering between a str and an int always raises TypeError
(used by lines 195/197 of the source, `if x > 0` with `x` a character). -/
def pyGtStrInt (_c : Char) (_n : ℤ) : Except String Bool :=
  .error "TypeError: unorderable str and int"

/-- Python `' '.join(parts)`. -/
def joinSpace : List String → String
  | [] => ""
  | [s] => s
  | s :: rest => s ++ " " ++ joinSpace rest

/-- Value of a hexadecimal digit (code points of 0-9, a-f, A-F). -/
def hexVal (c : Char) : Option ℕ :=
  if 48 ≤ c.toNat ∧ c.toNat ≤ 57 then some (c.toNat - 48)
  else if 97 ≤ c.toNat ∧ c.toNat ≤ 102 then some (c.toNat - 87)
  else if 65 ≤ c.toNat ∧ c.toNat ≤ 70 then some (c.toNat - 55)
  else none

/-- Models `int.from_bytes(bytes.fromhex(slice))` on the 2-character slice
`color[1:3]`: the empty slice gives the integer 0, an odd-length or non-hex
slice raises ValueError, and two hex digits give the byte value (endianness is
irrelevant for a single byte). -/
def hexPairVal : List Char → Except String ℕ
  | [] => .ok 0
  | [c1, c2] =>
    match hexVal c1, hexVal c2 with
    | some h, some l => .ok (16 * h + l)
    | _, _ => .error "ValueError: non-hexadecimal number"
  | _ => .error "ValueError: non-hexadecimal number"

/-- An exact decimal number `num / 10 ^ exp`, the result of parsing a decimal
literal with Python `float` (all floats handled by the module are such short
decimals, on which double arithmetic is exact enough to agree). -/
structure Dec where
  num : ℤ
  exp : ℕ
deriving DecidableEq, Repr

def Dec.toRat (d : Dec) : ℚ := d.num / 10 ^ d.exp

/-- The comparison `float(s) < 1` of line 203, exact on decimals. -/
def Dec.ltOne (d : Dec) : Bool := d.num < 10 ^ d.exp

def digitsToNat (cs : List Char) : ℕ := cs.foldl (fun a c => 10 * a + (c.toNat - 48)) 0

def allDigits (cs : List Char) : Bool := cs.all (fun c => c.isDigit)

/-- Python `float(s)` restricted to plain decimal literals
(`[+-]? digits [. digits]`), which are the only float strings the module
handles; anything else is modelled as the ValueError Python would raise on
non-numeric input. -/
def pyFloat (s : String) : Except String Dec :=
  let (sgn, body) : ℤ × List Char :=
    match s.data with
    | '-' :: t => (-1, t)
    | '+' :: t => (1, t)
    | _ => (1, s.data)
  let ip := body.takeWhile (fun c => c != '.')
  match body.dropWhile (fun c => c != '.') with
  | [] =>
    if ip ≠ [] ∧ allDigits ip then .ok ⟨sgn * digitsToNat ip, 0⟩
    else .error ("ValueError: could not convert string to float: " ++ s)
  | '.' :: fp =>
    if (ip ≠ [] ∨ fp ≠ []) ∧ allDigits ip ∧ allDigits fp then
      .ok ⟨sgn * (digitsToNat ip * 10 ^ fp.length + digitsToNat fp), fp.length⟩
    else .error ("ValueError: could not convert string to float: " ++ s)
  | _ => .error ("ValueError: could not convert string to float: " ++ s)

/- ===== `scale` and the opacity string (lines 60-67 and 128-129) ===== -/

/-- Lines 60-67 of the source.  `if not value or value_max == 0: return 0`,
otherwise clamp `scaled_max * (value / value_max)` to `[0, scaled_max]`.
Numbers are modelled by `ℚ`; the Python falsiness test `not value` on a number
means `value == 0`. -/
def scale (value value_max scaled_max : ℚ) : ℚ :=
  if value = 0 ∨ value_max = 0 then 0
  else max 0 (min (scaled_max * (value / value_max)) scaled_max)

/-- Python `round(y)` to an integer: round half to even (banker rounding). -/
def rndHalfEven (y : ℚ) : ℤ :=
  if y - ⌊y⌋ < 1 / 2 then ⌊y⌋
  else if 1 / 2 < y - ⌊y⌋ then ⌊y⌋ + 1
  else if ⌊y⌋ % 2 = 0 then ⌊y⌋ else ⌊y⌋ + 1

/-- Python `round(x, 2)`. -/
def round2 (x : ℚ) : ℚ := (rndHalfEven (x * 100) : ℚ) / 100

/-- Integer form of `round2 (a / 255) * 100` for a byte `a`: nearest integer to
`100 * a / 255` (the exact half tie is impossible because 255 is odd). -/
def alphaHundredths (a : ℕ) : ℕ :=
  if 2 * (100 * a % 255) < 255 then 100 * a / 255 else 100 * a / 255 + 1

/-- Python `str(f)` for a float `f = k / 100` with `0 ≤ k ≤ 100` (the rounded
opacity values): the shortest decimal, always keeping one fractional digit. -/
def hundredthsStr (k : ℕ) : String :=
  let whole := k / 100
  let frac := k % 100
  if frac = 0 then toString whole ++ ".0"
  else if frac % 10 = 0 then toString whole ++ "." ++ toString (frac / 10)
  else if frac < 10 then toString whole ++ ".0" ++ toString frac
  else toString whole ++ "." ++ toString frac

/-- Python `str(q)` for a float holding an exact multiple of 1/100 in [0, 1]. -/
def decStr2 (q : ℚ) : String := hundredthsStr (q * 100).num.toNat

/-- Models `str(round(scale(alpha, 255, 1), 2))` of lines 128-129.  When `alpha` is 0,
`scale` short-circuits on falsiness and returns the integer 0, which `str`
renders as "0"; otherwise the value is a float and keeps a decimal point. -/
def opacityStr (alpha : ℕ) : String :=
  if alpha = 0 then "0" else decStr2 (round2 (scale (alpha : ℚ) 255 1))

/- ===== `split_argb` (lines 118-129) ===== -/

/-- Lines 118-129 of the source.  Named colors and 7-character strings pass
through lowercased (with "transparent" becoming "none") at full opacity; other
hash-prefixed strings are ARGB hex: the first byte is the alpha channel,
converted to a 0-1 opacity, the rest is the RGB color, lowercased.  A
malformed hex slice raises ValueError. -/
def split_argb (color : String) : Except String (String × String) :=
  if startsHash color = false ∨ (startsHash color = true ∧ color.data.length = 7) then
    .ok (if lowerStr color = "transparent" then NO_COLOR else lowerStr color, FULL_OPACITY)
  else
    match hexPairVal ((color.data.drop 1).take 2) with
    | .error e => .error e
    | .ok alpha => .ok ("#" ++ lowerStr (String.mk (color.data.drop 3)), opacityStr alpha)

/- ===== The XML element model ===== -/

/-- An `xml.etree.ElementTree.Element`: tag, attributes in insertion order,
children in document order. -/
structure XElem where
  tag : String
  attrib : List (String × String)
  children : List XElem
deriving Repr

/-- Lookup in an attribute dictionary (first binding of the key). -/
def lookupKey (l : List (String × String)) (k : String) : Option String :=
  (l.find? (fun p => p.1 == k)).map Prod.snd

/-- Python `elem.find(tag)`: first direct child with the given tag, if any. -/
def XElem.find (e : XElem) (t : String) : Option XElem :=
  e.children.find? (fun c => c.tag == t)

/-- Python `elem.attrib.get(key)` (default None). -/
def XElem.attrGet? (e : XElem) (k : String) : Option String :=
  lookupKey e.attrib k

/-- Python `elem.attrib.get(key, default)`. -/
def XElem.attrGetD (e : XElem) (k d : String) : String := (e.attrGet? k).getD d

/-- Python `elem.attrib[key]`: KeyError when absent. -/
def XElem.attrIdx (e : XElem) (k : String) : Except String String :=
  match e.attrGet? k with
  | some v => .ok v
  | none => .error ("KeyError: " ++ k)

/- ===== `process_brush` (lines 132-164) ===== -/

/-- Lines 132-164 of the source.  The argument is the result of a `find` call,
so it can be None (then `brush[0]` raises TypeError).  An empty wrapper is the
caught IndexError branch: diagnostic and ("none", full opacity).  A solid color
brush with a missing, transparent or non-hash color yields "none"; otherwise
its color as given plus its Opacity attribute (default "1").  Any other brush
kind degrades to "red". -/
def process_brush (brush : Option XElem) (_defs : XElem) : Except String (String × String) :=
  match brush with
  | none => .error "TypeError: NoneType is not subscriptable"
  | some br =>
    match br.children with
    | [] => .ok (NO_COLOR, FULL_OPACITY)
    | b :: _ =>
      if b.tag = ELEM_SOLID_COLOR_BRUSH then
        let color := b.attrGetD ATTR_COLOR ""
        if color = "" ∨ lowerStr color = "transparent" ∨ startsHash color = false then
          .ok (NO_COLOR, FULL_OPACITY)
        else
          .ok (color, b.attrGetD ATTR_OPACITY FULL_OPACITY)
      else
        .ok ("red", FULL_OPACITY)

/- ===== `svg_group` (lines 75-89) ===== -/

/-- Lines 75-89 of the source, returning the `g` element the source appends to
its output parent (the children are filled in by `walk`).  The wrapper line
`tf_elem = tf_elem.find(ELEM_TRANSFORM_GROUP) or tf_elem` uses Python element
falsiness: a found TransformGroup with no children is falsy, so it is ignored.
Reading X, Y or Angle uses item access and can raise KeyError. -/
def svg_group (tf_elem : Option XElem) : Except String XElem :=
  match tf_elem with
  | none => .ok ⟨"g", [], []⟩
  | some tf0 =>
    let tf :=
      match tf0.find ELEM_TRANSFORM_GROUP with
      | some g => if g.children.isEmpty then tf0 else g
      | none => tf0
    let trPart : Except String (List String) :=
      match tf.find ELEM_TRANSFORM_TRANSLATE with
      | some tr =>
        match tr.attrIdx ATTR_X, tr.attrIdx ATTR_Y with
        | .ok x, .ok y => .ok [s!"translate({x},{y})"]
        | .error e, _ => .error e
        | _, .error e => .error e
      | none => .ok []
    let roPart : Except String (List String) :=
      match tf.find ELEM_TRANSFORM_ROTATE with
      | some ro =>
        match ro.attrIdx ATTR_ANGLE with
        | .ok a => .ok [s!"rotate({a})"]
        | .error e => .error e
      | none => .ok []
    match trPart, roPart with
    | .ok t, .ok r =>
      match t ++ r with
      | [] => .ok ⟨"g", [], []⟩
      | parts => .ok ⟨"g", [("transform", joinSpace parts)], []⟩
    | .error e, _ => .error e
    | _, .error e => .error e

/- ===== `svg_path` (lines 167-204) ===== -/

/-- Line 169 followed by lines 170-173: the fill is the inline Brush attribute
when present, else the GeometryDrawing.Brush child element (or None). -/
def resolve_fill (path_elem : XElem) (defs : XElem) : Except String (String × String) :=
  match path_elem.attrGet? ATTR_BRUSH with
  | some s => split_argb s
  | none => process_brush (path_elem.find ELEM_GEOMETRY_DRAWING_BRUSH) defs

/-- Lines 182-184 of the source: a first-level GeometryGroup with exactly one
child is unwrapped one level; anything else is kept as is. -/
def dig_once (g0 : XElem) : XElem :=
  match g0.children with
  | [c] => if g0.tag = ELEM_GEOMETRY_GROUP then c else g0
  | _ => g0

/-- Lines 185-200 of the source: dispatch on the resolved geometry object:
ellipse, rectangle (whose character-wise unpacking and str/int comparison
raise, see `strUnpack4` and `pyGtStrInt`) or unsupported (None). -/
def geom_dispatch (geometry : XElem) (fill : String) : Except String (Option XElem) :=
  if geometry.tag = ELEM_ELLIPSE then
    match split2 (geometry.attrGetD ATTR_CENTER "0,0") with
    | .error e => .error e
    | .ok (cx, cy) =>
      let radius_x := geometry.attrGetD ATTR_RADIUS_X "1"
      let radius_y := geometry.attrGetD ATTR_RADIUS_Y "1"
      .ok (some ⟨"ellipse",
        [("cx", cx), ("cy", cy), ("rx", radius_x), ("ry", radius_y), ("fill", fill)], []⟩)
  else if geometry.tag = ELEM_RECTANGLE then
    match strUnpack4 (geometry.attrGetD ATTR_RECT "0,0,1,1") with
    | .error e => .error e
    | .ok (x, y, w, h) =>
      let rect : XElem :=
        ⟨"rect", [("width", String.mk [w]), ("height", String.mk [h]), ("fill", fill)], []⟩
      match pyGtStrInt x 0 with
      | .error e => .error e
      | .ok bx =>
        let rect := if bx then { rect with attrib := rect.attrib ++ [("x", String.mk [x])] } else rect
        match pyGtStrInt y 0 with
        | .error e => .error e
        | .ok hy =>
          .ok (some (if hy then { rect with attrib := rect.attrib ++ [("y", String.mk [y])] } else rect))
  else
    .ok none

/-- Lines 175-200 of the source: the geometry half of `svg_path`, producing the
sub-element appended to the output parent (None in the unsupported branch).
An inline Geometry attribute yields a path with the "F1 " lead stripped.
Otherwise the first child of the GeometryDrawing.Geometry wrapper is taken
(IndexError when the wrapper is empty, TypeError when there is no wrapper),
unwrapped once through a single-child GeometryGroup, and dispatched. -/
def make_geom (path_elem : XElem) (fill : String) : Except String (Option XElem) :=
  match path_elem.attrGet? ATTR_GEOMETRY with
  | some g => .ok (some ⟨"path", [("d", removePre g "F1 "), ("fill", fill)], []⟩)
  | none =>
    match path_elem.find ELEM_GEOMETRY_DRAWING_GEOMETRY with
    | none => .error "TypeError: NoneType is not subscriptable"
    | some gw =>
      match gw.children with
      | [] => .error "IndexError: child index out of range"
      | g0 :: _ => geom_dispatch (dig_once g0) fill

/-- Lines 167-204 of the source: fill resolution, geometry mapping, then the
conditional fill-opacity attribute (`float(opacity) < 1`, evaluated only when a
sub-element was produced). -/
def svg_path (path_elem : XElem) (defs : XElem) : Except String (Option XElem) :=
  match resolve_fill path_elem defs with
  | .error e => .error e
  | .ok (fill, opacity) =>
    match make_geom path_elem fill with
    | .error e => .error e
    | .ok none => .ok none
    | .ok (some sub_elem) =>
      match pyFloat opacity with
      | .error e => .error e
      | .ok v =>
        .ok (some (if v.ltOne
          then { sub_elem with attrib := sub_elem.attrib ++ [("fill-opacity", opacity)] }
          else sub_elem))

/- ===== `image_size` (lines 207-216) ===== -/

/-- Lines 207-216 of the source: the first size in the fixed tuple whose
decimal string is a suffix of the key (the `isinstance` guard is vacuous in
the typed model). -/
def image_size (k : String) : Option ℕ :=
  [8, 12, 16, 24, 32, 48, 64, 96, 128].find? (fun s => strEndsWith k (toString s))

/- ===== `walk` (lines 219-227) and `drawing_to_svg` (lines 230-238) ===== -/

mutual
/-- Lines 219-227 of the source, functionally: the list of elements `walk`
appends under its output parent (a DrawingGroup yields one `g` whose children
are the walks of its children in order, a GeometryDrawing yields what
`svg_path` produced, anything else yields nothing). -/
def walk : XElem → XElem → Except String (List XElem)
  | ⟨t, a, cs⟩, defs =>
    if t = ELEM_DRAWING_GROUP then
      match svg_group (XElem.find ⟨t, a, cs⟩ ELEM_DRAWING_GROUP_TRANSFORM) with
      | .error e => .error e
      | .ok g =>
        match walkList cs defs with
        | .error e => .error e
        | .ok rs => .ok [{ g with children := rs }]
    else if t = ELEM_GEOMETRY_DRAWING then
      match svg_path ⟨t, a, cs⟩ defs with
      | .error e => .error e
      | .ok (some e) => .ok [e]
      | .ok none => .ok []
    else
      .ok []

/-- The `for item in elem_in: walk(item, parent_group)` loop: children in
order, each appending its results. -/
def walkList : List XElem → XElem → Except String (List XElem)
  | [], _ => .ok []
  | e :: rest, defs =>
    match walk e defs with
    | .error err => .error err
    | .ok r =>
      match walkList rest defs with
      | .error err => .error err
      | .ok rs => .ok (r ++ rs)
end

/-- Line 70-72 of the source. -/
def svg_root (viewsize : ℕ) (name : String) : XElem :=
  ⟨"svg", [("viewBox", s!"0 0 {viewsize} {viewsize}"),
           ("xmlns", "http://www.w3.org/2000/svg"), ("id", name)], []⟩

/-- Lines 230-238 of the source (the commented gradient defs are dead code). -/
def drawing_to_svg (xaml : XElem) (viewsize : ℕ) (name : String) : Except String XElem :=
  let root_out := svg_root viewsize name
  let defs : XElem := ⟨"defs", [], []⟩
  match walkList xaml.children defs with
  | .error e => .error e
  | .ok rs => .ok { root_out with children := rs }

/- ===== `main` (lines 241-274), file system aside ===== -/

/-- The per-entry loop of `main` (lines 251-274): entries without a (truthy)
key, without a recognized size suffix or without Drawing content are skipped;
surviving entries are converted, and an uncaught exception aborts the whole
run.  The produced files are modelled as (key, svg document) pairs. -/
def process_entries : List XElem → Except String (List (String × XElem))
  | [] => .ok []
  | img :: rest =>
    match img.attrGet? ATTR_KEY with
    | none => process_entries rest
    | some key =>
      if key = "" then process_entries rest
      else
        match image_size key with
        | none => process_entries rest
        | some size =>
          match img.find ELEM_DRAWING_IMAGE_DRAWING with
          | none => process_entries rest
          | some drawing =>
            match drawing_to_svg drawing size key with
            | .error e => .error e
            | .ok svg =>
              match process_entries rest with
              | .error e => .error e
              | .ok out => .ok ((key, svg) :: out)

/-- Models `main` (lines 241-274): iterate the DrawingImage children of the parsed
root.  `root.findall` returns the direct children with the given tag. -/
def main_convert (root : XElem) : Except String (List (String × XElem)) :=
  process_entries (root.children.filter (fun c => c.tag == ELEM_DRAWING_IMAGE))

/- ===== Store-based embedding of `walk` for the frame condition ===== -/

/-- The data of one ElementTree element in the object store: tag, attributes,
and the ids of its children.  In Python all elements (the parsed input tree
and the output tree being built) are objects in one heap; `walk` receives ids
and mutates through them. -/
structure EData where
  tag : String
  attrib : List (String × String)
  children : List ℕ
deriving Repr

/-- The element store: an association list from ids to element data. -/
abbrev Heap := List (ℕ × EData)

def hget (h : Heap) (i : ℕ) : Option EData :=
  (h.find? (fun p => p.1 == i)).map Prod.snd

/-- Replace the binding of an existing id (no-op when the id is absent). -/
def hset : Heap → ℕ → EData → Heap
  | [], _, _ => []
  | (j, d0) :: rest, i, d =>
    if j = i then (j, d) :: rest else (j, d0) :: hset rest i d

def htag (h : Heap) (i : ℕ) : Option String := (hget h i).map EData.tag

def hchildren (h : Heap) (i : ℕ) : List ℕ := ((hget h i).map EData.children).getD []

def hattrib (h : Heap) (i : ℕ) : List (String × String) := ((hget h i).map EData.attrib).getD []

def hAttrGet? (h : Heap) (i : ℕ) (k : String) : Option String := lookupKey (hattrib h i) k

def hAttrGetD (h : Heap) (i : ℕ) (k d : String) : String := (hAttrGet? h i k).getD d

/-- Python `elem.find(tag)` on the store. -/
def hfind (h : Heap) (i : ℕ) (t : String) : Option ℕ :=
  (hchildren h i).find? (fun cid => htag h cid == some t)

/-- Models `ETree.SubElement(parent, tag, attrs)`: allocate a fresh element (its id is
the current counter) and append its id to the parent's children.  Returns the
new store, the next counter and the new id. -/
def subElement (h : Heap) (c : ℕ) (parent : ℕ) (t : String) (a : List (String × String)) :
    Heap × ℕ × ℕ :=
  let h1 : Heap := (c, ⟨t, a, []⟩) :: h
  let h2 :=
    match hget h1 parent with
    | some pd => hset h1 parent ⟨pd.tag, pd.attrib, pd.children ++ [c]⟩
    | none => h1
  (h2, c + 1, c)

/-- The transform string computation of `svg_group` (pure reads, lines 77-85),
on the store. -/
def transformParts (h : Heap) (tf? : Option ℕ) : Except String (List String) :=
  match tf? with
  | none => .ok []
  | some tf0 =>
    let tf :=
      match hfind h tf0 ELEM_TRANSFORM_GROUP with
      | some g => if (hchildren h g).isEmpty then tf0 else g
      | none => tf0
    let trPart : Except String (List String) :=
      match hfind h tf ELEM_TRANSFORM_TRANSLATE with
      | some tr =>
        match hAttrGet? h tr ATTR_X, hAttrGet? h tr ATTR_Y with
        | some x, some y => .ok [s!"translate({x},{y})"]
        | none, _ => .error ("KeyError: " ++ ATTR_X)
        | _, none => .error ("KeyError: " ++ ATTR_Y)
      | none => .ok []
    let roPart : Except String (List String) :=
      match hfind h tf ELEM_TRANSFORM_ROTATE with
      | some ro =>
        match hAttrGet? h ro ATTR_ANGLE with
        | some a => .ok [s!"rotate({a})"]
        | none => .error ("KeyError: " ++ ATTR_ANGLE)
      | none => .ok []
    match trPart, roPart with
    | .ok t, .ok r => .ok (t ++ r)
    | .error e, _ => .error e
    | _, .error e => .error e

/-- The `svg_group` of the source on the store: compute the transform, then create the `g` child
of the output parent (reads happen before the single mutation, as in the
source). -/
def svg_groupH (h : Heap) (c : ℕ) (parent : ℕ) (tf? : Option ℕ) :
    Except String ℕ × Heap × ℕ :=
  match transformParts h tf? with
  | .error e => (.error e, h, c)
  | .ok [] =>
    let r := subElement h c parent "g" []
    (.ok r.2.2, r.1, r.2.1)
  | .ok parts =>
    let r := subElement h c parent "g" [("transform", joinSpace parts)]
    (.ok r.2.2, r.1, r.2.1)

/-- The `process_brush` of the source on the store (pure reads only). -/
def process_brushH (h : Heap) (brush? : Option ℕ) : Except String (String × String) :=
  match brush? with
  | none => .error "TypeError: NoneType is not subscriptable"
  | some bid =>
    match hchildren h bid with
    | [] => .ok (NO_COLOR, FULL_OPACITY)
    | b :: _ =>
      if htag h b = some ELEM_SOLID_COLOR_BRUSH then
        let color := hAttrGetD h b ATTR_COLOR ""
        if color = "" ∨ lowerStr color = "transparent" ∨ startsHash color = false then
          .ok (NO_COLOR, FULL_OPACITY)
        else
          .ok (color, hAttrGetD h b ATTR_OPACITY FULL_OPACITY)
      else
        .ok ("red", FULL_OPACITY)

/-- Fill resolution of `svg_path` on the store (pure reads only). -/
def resolve_fillH (h : Heap) (pathId : ℕ) : Except String (String × String) :=
  match hAttrGet? h pathId ATTR_BRUSH with
  | some s => split_argb s
  | none => process_brushH h (hfind h pathId ELEM_GEOMETRY_DRAWING_BRUSH)

/-- Lines 202-204 on the store: set fill-opacity on the sub-element just
created when `float(opacity) < 1`. -/
def finishOpacityH (h : Heap) (c : ℕ) (sid : ℕ) (opacity : String) :
    Except String Unit × Heap × ℕ :=
  match pyFloat opacity with
  | .error e => (.error e, h, c)
  | .ok v =>
    if v.ltOne then
      match hget h sid with
      | some d => (.ok (), hset h sid ⟨d.tag, d.attrib ++ [("fill-opacity", opacity)], d.children⟩, c)
      | none => (.ok (), h, c)
    else (.ok (), h, c)

/-- The `svg_path` of the source on the store: same logic as the functional `svg_path`, with the
sub-element created under the output parent by `subElement`. -/
def svg_pathH (h : Heap) (c : ℕ) (parent : ℕ) (pathId : ℕ) :
    Except String Unit × Heap × ℕ :=
  match resolve_fillH h pathId with
  | .error e => (.error e, h, c)
  | .ok (fill, opacity) =>
    match hAttrGet? h pathId ATTR_GEOMETRY with
    | some g =>
      let r := subElement h c parent "path" [("d", removePre g "F1 "), ("fill", fill)]
      finishOpacityH r.1 r.2.1 r.2.2 opacity
    | none =>
      match hfind h pathId ELEM_GEOMETRY_DRAWING_GEOMETRY with
      | none => (.error "TypeError: NoneType is not subscriptable", h, c)
      | some gw =>
        match hchildren h gw with
        | [] => (.error "IndexError: child index out of range", h, c)
        | g0 :: _ =>
          let geometry :=
            match hchildren h g0 with
            | [cid] => if htag h g0 = some ELEM_GEOMETRY_GROUP then cid else g0
            | _ => g0
          if htag h geometry = some ELEM_ELLIPSE then
            match split2 (hAttrGetD h geometry ATTR_CENTER "0,0") with
            | .error e => (.error e, h, c)
            | .ok (cx, cy) =>
              let r := subElement h c parent "ellipse"
                [("cx", cx), ("cy", cy), ("rx", hAttrGetD h geometry ATTR_RADIUS_X "1"),
                 ("ry", hAttrGetD h geometry ATTR_RADIUS_Y "1"), ("fill", fill)]
              finishOpacityH r.1 r.2.1 r.2.2 opacity
          else if htag h geometry = some ELEM_RECTANGLE then
            match strUnpack4 (hAttrGetD h geometry ATTR_RECT "0,0,1,1") with
            | .error e => (.error e, h, c)
            | .ok (_x, _y, w, ht) =>
              let r := subElement h c parent "rect"
                [("width", String.mk [w]), ("height", String.mk [ht]), ("fill", fill)]
              (.error "TypeError: unorderable str and int", r.1, r.2.1)
          else (.ok (), h, c)

/-- The `walk` of the source on the store, as a depth-first worklist of (input id, output parent
id) pairs, which performs exactly the source recursion's sequence of reads and
mutations: a DrawingGroup creates its `g` and queues its children (in order)
under the new group ahead of the remaining work; a GeometryDrawing runs
`svg_path`; other tags are ignored.  The fuel only bounds the recursion depth
(the source assumes a finite tree). -/
def walkH : ℕ → Heap → ℕ → List (ℕ × ℕ) → Except String Unit × Heap × ℕ
  | 0, h, c, _ => (.error "recursion limit", h, c)
  | _ + 1, h, c, [] => (.ok (), h, c)
  | fuel + 1, h, c, (inId, pId) :: rest =>
    match htag h inId with
    | none => (.error "invalid element id", h, c)
    | some t =>
      if t = ELEM_DRAWING_GROUP then
        match svg_groupH h c pId (hfind h inId ELEM_DRAWING_GROUP_TRANSFORM) with
        | (.error e, h1, c1) => (.error e, h1, c1)
        | (.ok gid, h1, c1) =>
          walkH fuel h1 c1 ((hchildren h1 inId).map (fun k => (k, gid)) ++ rest)
      else if t = ELEM_GEOMETRY_DRAWING then
        match svg_pathH h c pId inId with
        | (.error e, h1, c1) => (.error e, h1, c1)
        | (.ok _, h1, c1) => walkH fuel h1 c1 rest
      else walkH fuel h c rest

/-- The ids of the subtree rooted at an id (bounded by fuel): the input tree
whose preservation the frame condition asserts. -/
def subtreeIds : ℕ → Heap → ℕ → List ℕ
  | 0, _, _ => []
  | fuel + 1, h, i => i :: ((hchildren h i).map (subtreeIds fuel h)).flatten

/- ===== Concrete fixtures used by counterexamples and witnesses ===== -/

def cDefs : XElem := ⟨"defs", [], []⟩

/-- A GeometryDrawing with inline brush "red" and inline path geometry. -/
def cPathDrawing : XElem :=
  ⟨ELEM_GEOMETRY_DRAWING, [(ATTR_BRUSH, "red"), (ATTR_GEOMETRY, "F1 M0,0 L10,10")], []⟩

/-- A GeometryDrawing whose geometry is a RectangleGeometry with the usual
4-tuple Rect attribute. -/
def cRectDrawing : XElem :=
  ⟨ELEM_GEOMETRY_DRAWING, [(ATTR_BRUSH, "red")],
   [⟨ELEM_GEOMETRY_DRAWING_GEOMETRY, [], [⟨ELEM_RECTANGLE, [(ATTR_RECT, "0,0,10,20")], []⟩]⟩]⟩

/-- Same with a 4-character Rect attribute (so character unpacking succeeds). -/
def cRect4Drawing : XElem :=
  ⟨ELEM_GEOMETRY_DRAWING, [(ATTR_BRUSH, "red")],
   [⟨ELEM_GEOMETRY_DRAWING_GEOMETRY, [], [⟨ELEM_RECTANGLE, [(ATTR_RECT, "5511")], []⟩]⟩]⟩

/-- A GeometryDrawing with an empty GeometryDrawing.Geometry wrapper. -/
def cEmptyGeomDrawing : XElem :=
  ⟨ELEM_GEOMETRY_DRAWING, [(ATTR_BRUSH, "red")], [⟨ELEM_GEOMETRY_DRAWING_GEOMETRY, [], []⟩]⟩

/-- A GeometryDrawing with an unsupported geometry kind (a PathGeometry child). -/
def cUnsupGeomDrawing : XElem :=
  ⟨ELEM_GEOMETRY_DRAWING, [(ATTR_BRUSH, "red")],
   [⟨ELEM_GEOMETRY_DRAWING_GEOMETRY, [], [⟨qn NS_ROOT "PathGeometry", [], []⟩]⟩]⟩

/-- A valid DrawingImage entry with a recognized key. -/
def cGoodImg : XElem :=
  ⟨ELEM_DRAWING_IMAGE, [(ATTR_KEY, "Close16")],
   [⟨ELEM_DRAWING_IMAGE_DRAWING, [], [cPathDrawing]⟩]⟩

/-- A DrawingImage entry whose drawing has an empty geometry wrapper. -/
def cBadImg : XElem :=
  ⟨ELEM_DRAWING_IMAGE, [(ATTR_KEY, "Bad16")],
   [⟨ELEM_DRAWING_IMAGE_DRAWING, [], [cEmptyGeomDrawing]⟩]⟩

def cBadRoot : XElem := ⟨"root", [], [cBadImg, cGoodImg]⟩

def cGoodRoot : XElem := ⟨"root", [], [cGoodImg]⟩

/-- The SVG document produced for `cGoodImg`. -/
def cGoodSvg : XElem :=
  ⟨"svg", [("viewBox", "0 0 16 16"), ("xmlns", "http://www.w3.org/2000/svg"), ("id", "Close16")],
   [⟨"path", [("d", "M0,0 L10,10"), ("fill", "red")], []⟩]⟩

/- ===== Claims C1 and C2 (code bugs evaluated on the model) ===== -/

/-- Claim C1: the claim (and the docstring of `image_size`, which lists 48 and
128 as supported) says a key ending in "48" maps to 48 and one ending in "128"
maps to 128, and that the candidate test order is irrelevant.  The code tests
the suffix "8" first, so every key ending in "48" or "128" returns 8 instead:
the sizes 48 and 128 are unreachable return values.  Keys ending in "96",
"32" or in no recognized suffix behave as claimed. -/
theorem image_size_shadowed_by_8 :
    image_size "icon48" = some 8 ∧ image_size "icon128" = some 8 ∧
    image_size "Close48" = some 8 ∧
    image_size "icon96" = some 96 ∧ image_size "icon32" = some 32 ∧
    image_size "icon7" = none := by
  refine ⟨rfl, rfl, rfl, rfl, rfl, rfl⟩

/-- Claim C2: the claim says a rectangle descriptor "0,0,10,20" yields a rect
with width 10, height 20 and no x/y attributes.  The code unpacks the Rect
string character-wise (the `.split(',')` of the ellipse branch is missing), so
the usual 4-tuple raises ValueError; even a 4-character Rect value then raises
TypeError on the `x > 0` comparison of a str with an int.  The rectangle
branch can never produce an element. -/
theorem rect_branch_raises :
    svg_path cRectDrawing cDefs = .error "ValueError: unpack" ∧
    svg_path cRect4Drawing cDefs = .error "TypeError: unorderable str and int" :=
  ⟨rfl, rfl⟩

/- ===== Claim C3 ===== -/

/-- Claim C3, counterexample: an empty GeometryDrawing.Geometry wrapper is a
construct-level problem, but it raises an uncaught IndexError which aborts the
whole batch: with the faulty entry first, the following valid entry (which
alone converts fine) is never processed. -/
theorem empty_geometry_wrapper_aborts_batch :
    main_convert cBadRoot = .error "IndexError: child index out of range" ∧
    main_convert cGoodRoot = .ok [("Close16", cGoodSvg)] :=
  ⟨rfl, rfl⟩

/-- Claim C3, amended: entry-level problems (missing or empty key,
unrecognized size suffix, missing drawing content) and the construct-level
problems empty brush wrapper, unsupported brush kind and unsupported geometry
kind never abort the batch; but an empty geometry wrapper (and likewise a
malformed geometry descriptor) raises an uncaught exception that aborts the
whole run. -/
theorem error_policy_amended :
    (∀ (img : XElem) (rest : List XElem),
        (img.attrGet? ATTR_KEY = none ∨ img.attrGet? ATTR_KEY = some "") →
        process_entries (img :: rest) = process_entries rest) ∧
    (∀ (img : XElem) (rest : List XElem) (key : String),
        img.attrGet? ATTR_KEY = some key → image_size key = none →
        process_entries (img :: rest) = process_entries rest) ∧
    (∀ (img : XElem) (rest : List XElem) (key : String),
        img.attrGet? ATTR_KEY = some key → key ≠ "" →
        img.find ELEM_DRAWING_IMAGE_DRAWING = none →
        process_entries (img :: rest) = process_entries rest) ∧
    (∀ (b d : XElem), b.children = [] →
        process_brush (some b) d = .ok (NO_COLOR, FULL_OPACITY)) ∧
    (∀ (b d c : XElem) (cs : List XElem), b.children = c :: cs →
        c.tag ≠ ELEM_SOLID_COLOR_BRUSH →
        process_brush (some b) d = .ok ("red", FULL_OPACITY)) ∧
    (∀ (p d gw g0 : XElem) (gs : List XElem) (fill op : String),
        resolve_fill p d = .ok (fill, op) →
        p.attrGet? ATTR_GEOMETRY = none →
        p.find ELEM_GEOMETRY_DRAWING_GEOMETRY = some gw →
        gw.children = g0 :: gs →
        (dig_once g0).tag ≠ ELEM_ELLIPSE →
        (dig_once g0).tag ≠ ELEM_RECTANGLE →
        svg_path p d = .ok none) := by
  refine ⟨?_, ?_, ?_, ?_, ?_, ?_⟩
  · intro img rest h
    rcases h with h | h
    · simp only [process_entries, h]
    · simp only [process_entries, h]; simp
  · intro img rest key hkey hsize
    by_cases hk : key = ""
    · simp only [process_entries, hkey, hk]; simp
    · simp only [process_entries, hkey, hsize, if_neg hk]
  · intro img rest key hkey hk hfind
    simp only [process_entries, hkey, if_neg hk]
    cases hsize : image_size key with
    | none => rfl
    | some size => simp only [hfind]
  · intro b d hb
    simp only [process_brush, hb]
  · intro b d c cs hb htag
    simp only [process_brush, hb, if_neg htag]
  · intro p d gw g0 gs fill op hres hattr hfind hch h1 h2
    simp only [svg_path, hres, make_geom, geom_dispatch, hattr, hfind, hch, if_neg h1, if_neg h2]

/-- Witness for the amended C3 theorem: each conjunct applied to a concrete
input. -/
theorem error_policy_amended_witness :
    process_entries (⟨ELEM_DRAWING_IMAGE, [], []⟩ :: [cGoodImg]) = process_entries [cGoodImg] ∧
    process_entries (⟨ELEM_DRAWING_IMAGE, [(ATTR_KEY, "icon7")], []⟩ :: [cGoodImg]) =
      process_entries [cGoodImg] ∧
    process_entries (⟨ELEM_DRAWING_IMAGE, [(ATTR_KEY, "Lost16")], []⟩ :: [cGoodImg]) =
      process_entries [cGoodImg] ∧
    process_brush (some ⟨ELEM_GEOMETRY_DRAWING_BRUSH, [], []⟩) cDefs = .ok (NO_COLOR, FULL_OPACITY) ∧
    process_brush (some ⟨ELEM_GEOMETRY_DRAWING_BRUSH, [],
      [⟨qn NS_ROOT "RadialGradientBrush", [], []⟩]⟩) cDefs = .ok ("red", FULL_OPACITY) ∧
    svg_path cUnsupGeomDrawing cDefs = .ok none :=
  ⟨error_policy_amended.1 _ _ (Or.inl rfl),
   error_policy_amended.2.1 _ _ "icon7" rfl rfl,
   error_policy_amended.2.2.1 _ _ "Lost16" rfl (by decide) rfl,
   error_policy_amended.2.2.2.1 _ cDefs rfl,
   error_policy_amended.2.2.2.2.1 _ cDefs _ [] rfl (by decide),
   error_policy_amended.2.2.2.2.2 _ cDefs _ _ [] "red" "1" rfl rfl rfl rfl (by decide) (by decide)⟩

/- ===== Claim C5 ===== -/

/-- A GeometryDrawing whose geometry first child is a single-child
GeometryGroup wrapping another single-child GeometryGroup around an ellipse. -/
def cNestedGroupDrawing : XElem :=
  ⟨ELEM_GEOMETRY_DRAWING, [(ATTR_BRUSH, "red")],
   [⟨ELEM_GEOMETRY_DRAWING_GEOMETRY, [],
     [⟨ELEM_GEOMETRY_GROUP, [],
       [⟨ELEM_GEOMETRY_GROUP, [], [⟨ELEM_ELLIPSE, [], []⟩]⟩]⟩]⟩]⟩

/-- The same drawing with the sole child (the inner single-child group) as the
first child of the geometry wrapper directly. -/
def cDirectGroupDrawing : XElem :=
  ⟨ELEM_GEOMETRY_DRAWING, [(ATTR_BRUSH, "red")],
   [⟨ELEM_GEOMETRY_DRAWING_GEOMETRY, [],
     [⟨ELEM_GEOMETRY_GROUP, [], [⟨ELEM_ELLIPSE, [], []⟩]⟩]⟩]⟩

/-- Claim C5, counterexample: when the sole child of a single-child
geometry-group is itself a single-child geometry-group, the wrapped form is
NOT equivalent to having that child directly: flattening only happens one
level, so the wrapped form falls through to the unsupported branch (no
element), while the direct form flattens and produces the ellipse. -/
theorem nested_single_child_group_not_flattened :
    svg_path cNestedGroupDrawing cDefs = .ok none ∧
    svg_path cDirectGroupDrawing cDefs =
      .ok (some ⟨"ellipse",
        [("cx", "0"), ("cy", "0"), ("rx", "1"), ("ry", "1"), ("fill", "red")], []⟩) :=
  ⟨rfl, rfl⟩

/-- Unwrapping: `dig_once` unwraps a single-child geometry group. -/
theorem dig_once_group (G c : XElem) (ht : G.tag = ELEM_GEOMETRY_GROUP)
    (hc : G.children = [c]) : dig_once G = c := by
  simp [dig_once, hc, ht]

/-- Identity case: `dig_once` is the identity away from single-child geometry groups. -/
theorem dig_once_id (c : XElem)
    (h : ¬(c.tag = ELEM_GEOMETRY_GROUP ∧ c.children.length = 1)) : dig_once c = c := by
  unfold dig_once
  cases hc : c.children with
  | nil => rfl
  | cons a l =>
    cases l with
    | nil =>
      have htag : ¬ c.tag = ELEM_GEOMETRY_GROUP := fun ht => h ⟨ht, by rw [hc]; rfl⟩
      simp [htag]
    | cons b m => rfl

/-- Identity case: `dig_once` is the identity when the child count is not one. -/
theorem dig_once_of_len (G : XElem) (h : G.children.length ≠ 1) : dig_once G = G := by
  unfold dig_once
  cases hc : G.children with
  | nil => rfl
  | cons a l =>
    cases l with
    | nil => exact absurd (by rw [hc]; rfl) h
    | cons b m => rfl

/-- On a GeometryDrawing with no inline Geometry attribute whose first child
is the geometry wrapper, `make_geom` dispatches on the unwrapped first child
of the wrapper. -/
theorem make_geom_wrapper (attrs wattrs : List (String × String))
    (crest gtail : List XElem) (g0 : XElem) (fill : String)
    (hlk : lookupKey attrs ATTR_GEOMETRY = none) :
    make_geom ⟨ELEM_GEOMETRY_DRAWING, attrs,
        ⟨ELEM_GEOMETRY_DRAWING_GEOMETRY, wattrs, g0 :: gtail⟩ :: crest⟩ fill =
      geom_dispatch (dig_once g0) fill := by
  have hbeq : (ELEM_GEOMETRY_DRAWING_GEOMETRY == ELEM_GEOMETRY_DRAWING_GEOMETRY) = true := by
    decide
  simp only [make_geom, XElem.attrGet?, hlk, XElem.find, List.find?, hbeq]

/-- The fill resolution of a GeometryDrawing does not depend on the contents
of its geometry wrapper. -/
theorem resolve_fill_wrapper_irrelevant (attrs wattrs : List (String × String))
    (crest cs1 cs2 : List XElem) (d : XElem) :
    resolve_fill ⟨ELEM_GEOMETRY_DRAWING, attrs,
        ⟨ELEM_GEOMETRY_DRAWING_GEOMETRY, wattrs, cs1⟩ :: crest⟩ d =
      resolve_fill ⟨ELEM_GEOMETRY_DRAWING, attrs,
        ⟨ELEM_GEOMETRY_DRAWING_GEOMETRY, wattrs, cs2⟩ :: crest⟩ d := by
  have hbeq : (ELEM_GEOMETRY_DRAWING_GEOMETRY == ELEM_GEOMETRY_DRAWING_BRUSH) = false := by
    decide
  simp only [resolve_fill, XElem.attrGet?, XElem.find, List.find?, hbeq]

/-- Claim C5, amended: a first-level geometry-group with exactly one child is
equivalent to that child directly, provided the sole child is not itself a
single-child geometry-group (flattening is one level only, so in that nested
case the two forms differ); and a geometry-group with zero or two or more
children is unsupported and produces no output element. -/
theorem geometry_group_flattening_amended :
    (∀ (attrs wattrs : List (String × String)) (crest gtail : List XElem) (G c d : XElem),
        lookupKey attrs ATTR_GEOMETRY = none →
        G.tag = ELEM_GEOMETRY_GROUP → G.children = [c] →
        ¬(c.tag = ELEM_GEOMETRY_GROUP ∧ c.children.length = 1) →
        svg_path ⟨ELEM_GEOMETRY_DRAWING, attrs,
            ⟨ELEM_GEOMETRY_DRAWING_GEOMETRY, wattrs, G :: gtail⟩ :: crest⟩ d =
          svg_path ⟨ELEM_GEOMETRY_DRAWING, attrs,
            ⟨ELEM_GEOMETRY_DRAWING_GEOMETRY, wattrs, c :: gtail⟩ :: crest⟩ d) ∧
    (∀ (attrs wattrs : List (String × String)) (crest gtail : List XElem) (G d : XElem)
        (fill op : String),
        lookupKey attrs ATTR_GEOMETRY = none →
        G.tag = ELEM_GEOMETRY_GROUP → G.children.length ≠ 1 →
        resolve_fill ⟨ELEM_GEOMETRY_DRAWING, attrs,
            ⟨ELEM_GEOMETRY_DRAWING_GEOMETRY, wattrs, G :: gtail⟩ :: crest⟩ d = .ok (fill, op) →
        svg_path ⟨ELEM_GEOMETRY_DRAWING, attrs,
            ⟨ELEM_GEOMETRY_DRAWING_GEOMETRY, wattrs, G :: gtail⟩ :: crest⟩ d = .ok none) := by
  constructor
  · intro attrs wattrs crest gtail G c d hlk hGt hGc hnc
    have hfill := resolve_fill_wrapper_irrelevant attrs wattrs crest (G :: gtail) (c :: gtail) d
    have hg1 := fun fill => make_geom_wrapper attrs wattrs crest gtail G fill hlk
    have hg2 := fun fill => make_geom_wrapper attrs wattrs crest gtail c fill hlk
    have hdig : dig_once G = c := dig_once_group G c hGt hGc
    have hdig2 : dig_once c = c := dig_once_id c hnc
    simp only [svg_path, hfill]
    cases hres : resolve_fill ⟨ELEM_GEOMETRY_DRAWING, attrs,
        ⟨ELEM_GEOMETRY_DRAWING_GEOMETRY, wattrs, c :: gtail⟩ :: crest⟩ d with
    | error e => rfl
    | ok pr =>
      obtain ⟨fill, op⟩ := pr
      simp only [hg1 fill, hg2 fill, hdig, hdig2]
  · intro attrs wattrs crest gtail G d fill op hlk hGt hlen hres
    have hg := make_geom_wrapper attrs wattrs crest gtail G fill hlk
    have hdig : dig_once G = G := dig_once_of_len G hlen
    have h1 : ¬ G.tag = ELEM_ELLIPSE := by rw [hGt]; decide
    have h2 : ¬ G.tag = ELEM_RECTANGLE := by rw [hGt]; decide
    simp only [svg_path, hres, hg, hdig, geom_dispatch, if_neg h1, if_neg h2]

/-- Witness for the amended C5 theorem: the equivalence applied with an
ellipse as sole child, and the no-output conjunct applied to a two-child
geometry group. -/
theorem geometry_group_flattening_amended_witness :
    svg_path ⟨ELEM_GEOMETRY_DRAWING, [(ATTR_BRUSH, "red")],
        [⟨ELEM_GEOMETRY_DRAWING_GEOMETRY, [],
          [⟨ELEM_GEOMETRY_GROUP, [], [⟨ELEM_ELLIPSE, [], []⟩]⟩]⟩]⟩ cDefs =
      svg_path ⟨ELEM_GEOMETRY_DRAWING, [(ATTR_BRUSH, "red")],
        [⟨ELEM_GEOMETRY_DRAWING_GEOMETRY, [], [⟨ELEM_ELLIPSE, [], []⟩]⟩]⟩ cDefs ∧
    svg_path ⟨ELEM_GEOMETRY_DRAWING, [(ATTR_BRUSH, "red")],
        [⟨ELEM_GEOMETRY_DRAWING_GEOMETRY, [],
          [⟨ELEM_GEOMETRY_GROUP, [], [⟨ELEM_ELLIPSE, [], []⟩, ⟨ELEM_ELLIPSE, [], []⟩]⟩]⟩]⟩ cDefs =
      .ok none :=
  ⟨geometry_group_flattening_amended.1 [(ATTR_BRUSH, "red")] [] [] []
      ⟨ELEM_GEOMETRY_GROUP, [], [⟨ELEM_ELLIPSE, [], []⟩]⟩ ⟨ELEM_ELLIPSE, [], []⟩ cDefs
      rfl rfl rfl (by decide),
   geometry_group_flattening_amended.2 [(ATTR_BRUSH, "red")] [] [] []
      ⟨ELEM_GEOMETRY_GROUP, [], [⟨ELEM_ELLIPSE, [], []⟩, ⟨ELEM_ELLIPSE, [], []⟩]⟩ cDefs
      "red" "1" rfl rfl (by decide) rfl⟩

/- ===== Claim C6 ===== -/

/-- Claim C6: on a Transform element without a TransformGroup wrapper, the
output group's transform attribute is the single combined string
"translate(dx,dy) rotate(angle)" when both a translation and a rotation are
present (translation first), just the one function when exactly one is
present, and when neither is present (or there is no Transform element at
all) the output group has an empty attribute list, hence no transform
attribute whatsoever. -/
theorem transform_attribute_cases :
    (∀ (tf tr ro : XElem) (dx dy ang : String),
        tf.find ELEM_TRANSFORM_GROUP = none →
        tf.find ELEM_TRANSFORM_TRANSLATE = some tr →
        tr.attrGet? ATTR_X = some dx → tr.attrGet? ATTR_Y = some dy →
        tf.find ELEM_TRANSFORM_ROTATE = some ro →
        ro.attrGet? ATTR_ANGLE = some ang →
        svg_group (some tf) =
          .ok ⟨"g", [("transform", s!"translate({dx},{dy})" ++ " " ++ s!"rotate({ang})")], []⟩) ∧
    (∀ (tf tr : XElem) (dx dy : String),
        tf.find ELEM_TRANSFORM_GROUP = none →
        tf.find ELEM_TRANSFORM_TRANSLATE = some tr →
        tr.attrGet? ATTR_X = some dx → tr.attrGet? ATTR_Y = some dy →
        tf.find ELEM_TRANSFORM_ROTATE = none →
        svg_group (some tf) = .ok ⟨"g", [("transform", s!"translate({dx},{dy})")], []⟩) ∧
    (∀ (tf ro : XElem) (ang : String),
        tf.find ELEM_TRANSFORM_GROUP = none →
        tf.find ELEM_TRANSFORM_TRANSLATE = none →
        tf.find ELEM_TRANSFORM_ROTATE = some ro →
        ro.attrGet? ATTR_ANGLE = some ang →
        svg_group (some tf) = .ok ⟨"g", [("transform", s!"rotate({ang})")], []⟩) ∧
    (∀ (tf : XElem),
        tf.find ELEM_TRANSFORM_GROUP = none →
        tf.find ELEM_TRANSFORM_TRANSLATE = none →
        tf.find ELEM_TRANSFORM_ROTATE = none →
        svg_group (some tf) = .ok ⟨"g", [], []⟩) ∧
    svg_group none = .ok ⟨"g", [], []⟩ := by
  refine ⟨?_, ?_, ?_, ?_, rfl⟩
  · intro tf tr ro dx dy ang hw htr hx hy hro hang
    simp only [svg_group, hw, htr, hro, XElem.attrIdx, hx, hy, hang]
    rfl
  · intro tf tr dx dy hw htr hx hy hro
    simp only [svg_group, hw, htr, hro, XElem.attrIdx, hx, hy]
    rfl
  · intro tf ro ang hw htr hro hang
    simp only [svg_group, hw, htr, hro, XElem.attrIdx, hang]
    rfl
  · intro tf hw htr hro
    simp only [svg_group, hw, htr, hro]
    rfl

/-- A concrete Transform with both a translation and a rotation. -/
def cTransformBoth : XElem :=
  ⟨ELEM_DRAWING_GROUP_TRANSFORM, [],
   [⟨ELEM_TRANSFORM_TRANSLATE, [(ATTR_X, "1"), (ATTR_Y, "2")], []⟩,
    ⟨ELEM_TRANSFORM_ROTATE, [(ATTR_ANGLE, "45")], []⟩]⟩

/-- Witness for C6: the combined, single and absent cases on concrete
elements. -/
theorem transform_attribute_cases_witness :
    svg_group (some cTransformBoth) =
      .ok ⟨"g", [("transform", "translate(1,2) rotate(45)")], []⟩ ∧
    svg_group (some ⟨ELEM_DRAWING_GROUP_TRANSFORM, [],
      [⟨ELEM_TRANSFORM_ROTATE, [(ATTR_ANGLE, "45")], []⟩]⟩) =
      .ok ⟨"g", [("transform", "rotate(45)")], []⟩ ∧
    svg_group (some ⟨ELEM_DRAWING_GROUP_TRANSFORM, [], []⟩) = .ok ⟨"g", [], []⟩ :=
  ⟨transform_attribute_cases.1 cTransformBoth
      ⟨ELEM_TRANSFORM_TRANSLATE, [(ATTR_X, "1"), (ATTR_Y, "2")], []⟩
      ⟨ELEM_TRANSFORM_ROTATE, [(ATTR_ANGLE, "45")], []⟩
      "1" "2" "45" rfl rfl rfl rfl rfl rfl,
   transform_attribute_cases.2.2.1 ⟨ELEM_DRAWING_GROUP_TRANSFORM, [],
      [⟨ELEM_TRANSFORM_ROTATE, [(ATTR_ANGLE, "45")], []⟩]⟩
      ⟨ELEM_TRANSFORM_ROTATE, [(ATTR_ANGLE, "45")], []⟩ "45" rfl rfl rfl rfl,
   transform_attribute_cases.2.2.2.1 ⟨ELEM_DRAWING_GROUP_TRANSFORM, [], []⟩ rfl rfl rfl⟩

/- ===== Claim C7 ===== -/

/-- Claim C7: a fill specification that lowercases to "transparent" (any
letter case), be it an inline fill attribute or the Color attribute of a
solid-color brush sub-object, resolves to the output color "none" with full
opacity. -/
theorem transparent_maps_to_none :
    (∀ (s : String), lowerStr s = "transparent" →
        split_argb s = .ok (NO_COLOR, FULL_OPACITY)) ∧
    (∀ (b d c : XElem) (cs : List XElem),
        b.children = c :: cs → c.tag = ELEM_SOLID_COLOR_BRUSH →
        lowerStr (c.attrGetD ATTR_COLOR "") = "transparent" →
        process_brush (some b) d = .ok (NO_COLOR, FULL_OPACITY)) := by
  constructor
  · intro s hs
    have hd : s.data.map Char.toLower = "transparent".data := congrArg String.data hs
    have hhash : startsHash s = false := by
      unfold startsHash
      cases hc : s.data with
      | nil => rfl
      | cons ch ct =>
        rw [hc] at hd
        rw [show "transparent".data = 't' :: "ransparent".data from rfl] at hd
        simp only [List.map] at hd
        have h1 : Char.toLower ch = 't' := (List.cons.injEq _ _ _ _ ▸ hd).1
        have : ch ≠ '#' := by
          intro h
          rw [h] at h1
          exact absurd h1 (by decide)
        simp [this]
    simp only [split_argb, hhash]
    simp [hs]
  · intro b d c cs hb htag hlow
    simp only [process_brush, hb, if_pos htag]
    rw [if_pos (Or.inr (Or.inl hlow))]

/-- Witness for C7: "Transparent" and "TRANSPARENT" on both call shapes. -/
theorem transparent_maps_to_none_witness :
    split_argb "Transparent" = .ok (NO_COLOR, FULL_OPACITY) ∧
    split_argb "TRANSPARENT" = .ok (NO_COLOR, FULL_OPACITY) ∧
    process_brush (some ⟨ELEM_GEOMETRY_DRAWING_BRUSH, [],
      [⟨ELEM_SOLID_COLOR_BRUSH, [(ATTR_COLOR, "TransPARENT")], []⟩]⟩) cDefs =
      .ok (NO_COLOR, FULL_OPACITY) :=
  ⟨transparent_maps_to_none.1 "Transparent" rfl,
   transparent_maps_to_none.1 "TRANSPARENT" rfl,
   transparent_maps_to_none.2 _ cDefs _ [] rfl rfl rfl⟩

/- ===== Claim C8 ===== -/

/-- The comparison `float(op) < 1` agrees with the rational comparison. -/
theorem Dec.ltOne_iff (d : Dec) : d.ltOne = true ↔ d.toRat < 1 := by
  unfold Dec.ltOne Dec.toRat
  rw [decide_eq_true_eq, div_lt_one (by positivity)]
  exact_mod_cast Iff.rfl

/-- Evaluation of `split_argb` on named colors and 7-character strings: pass-through with
full opacity. -/
theorem split_argb_passthrough (s : String) (h : startsHash s = false ∨ s.data.length = 7) :
    split_argb s =
      .ok (if lowerStr s = "transparent" then NO_COLOR else lowerStr s, FULL_OPACITY) := by
  unfold split_argb
  rcases h with h | h
  · rw [if_pos (Or.inl h)]
  · cases hh : startsHash s with
    | false => rw [if_pos (Or.inl rfl)]
    | true => rw [if_pos (Or.inr ⟨rfl, h⟩)]

/-- No geometry branch puts a fill-opacity attribute on the element it
creates. -/
theorem geom_dispatch_no_fill_opacity (g : XElem) (fill : String) (e0 : XElem)
    (h : geom_dispatch g fill = .ok (some e0)) :
    lookupKey e0.attrib "fill-opacity" = none := by
  unfold geom_dispatch at h
  split at h
  · split at h
    · cases h
    · simp only [Except.ok.injEq, Option.some.injEq] at h
      subst h
      rfl
  · split at h
    · rcases hs : strUnpack4 (g.attrGetD ATTR_RECT "0,0,1,1") with err | ⟨x, y, w, ht⟩ <;>
        rw [hs] at h
      · cases h
      · simp [pyGtStrInt] at h
    · simp at h

/-- The function `make_geom` never puts a fill-opacity attribute on the element it
creates. -/
theorem make_geom_no_fill_opacity (p : XElem) (fill : String) (e0 : XElem)
    (h : make_geom p fill = .ok (some e0)) :
    lookupKey e0.attrib "fill-opacity" = none := by
  unfold make_geom at h
  split at h
  · simp only [Except.ok.injEq, Option.some.injEq] at h
    subst h
    rfl
  · split at h
    · cases h
    · split at h
      · cases h
      · exact geom_dispatch_no_fill_opacity _ _ _ h

/-- Inversion of a successful `svg_path` producing an element. -/
theorem svg_path_ok_structure (p d : XElem) (e : XElem)
    (h : svg_path p d = .ok (some e)) :
    ∃ fill op e0 v, resolve_fill p d = .ok (fill, op) ∧ make_geom p fill = .ok (some e0) ∧
      pyFloat op = .ok v ∧
      e = if v.ltOne then { e0 with attrib := e0.attrib ++ [("fill-opacity", op)] } else e0 := by
  unfold svg_path at h
  rcases hres : resolve_fill p d with err | ⟨fill, op⟩ <;> rw [hres] at h <;>
    (try dsimp only at h)
  · cases h
  · rcases hgeom : make_geom p fill with err | oe <;> rw [hgeom] at h <;>
      (try dsimp only at h)
    · cases h
    · rcases oe with _ | e0 <;> (try dsimp only at h)
      · cases h
      · rcases hpf : pyFloat op with err | v <;> rw [hpf] at h <;>
          (try dsimp only at h)
        · cases h
        · injection h with h1
          injection h1 with h2
          exact ⟨fill, op, e0, v, by simp [hres], by simp [hgeom], by simp [hpf], h2.symm⟩

/-- Appending a fresh key at the end of an attribute list makes it found. -/
theorem lookupKey_append (l : List (String × String)) (k val : String)
    (h : lookupKey l k = none) : lookupKey (l ++ [(k, val)]) k = some val := by
  unfold lookupKey at h ⊢
  rw [List.find?_append]
  cases hf : l.find? (fun p => p.1 == k) with
  | none => simp [List.find?]
  | some pr => rw [hf] at h; cases h

/-- Claim C8: a produced primitive element carries the fill-opacity attribute
exactly when the resolved opacity is strictly below 1; and inline 6-digit hex
or named colors resolve to full opacity, so elements produced from them never
carry fill-opacity. -/
theorem fill_opacity_iff_lt_one :
    (∀ (p d : XElem) (fill op : String) (v : Dec) (e : XElem),
        resolve_fill p d = .ok (fill, op) → pyFloat op = .ok v →
        svg_path p d = .ok (some e) →
        lookupKey e.attrib "fill-opacity" = if v.toRat < 1 then some op else none) ∧
    (∀ (p d : XElem) (s : String) (e : XElem),
        p.attrGet? ATTR_BRUSH = some s →
        (startsHash s = false ∨ s.data.length = 7) →
        (∃ col, split_argb s = .ok (col, FULL_OPACITY)) ∧
        (svg_path p d = .ok (some e) → lookupKey e.attrib "fill-opacity" = none)) := by
  constructor
  · intro p d fill op v e hres hpf hsvg
    obtain ⟨fill', op', e0, v', hres', hgeom', hpf', he⟩ := svg_path_ok_structure p d e hsvg
    rw [hres] at hres'
    injection hres' with h1
    injection h1 with hf ho
    subst hf
    subst ho
    rw [hpf] at hpf'
    injection hpf' with h2
    subst h2
    have hbase := make_geom_no_fill_opacity p fill e0 hgeom'
    cases hv : v.ltOne with
    | true =>
      rw [hv] at he
      rw [if_pos ((Dec.ltOne_iff v).mp hv)]
      rw [he]
      exact lookupKey_append _ _ _ hbase
    | false =>
      rw [hv] at he
      rw [if_neg (fun hlt => by
        have hcon := (Dec.ltOne_iff v).mpr hlt
        rw [hv] at hcon
        cases hcon)]
      rw [he]
      exact hbase
  · intro p d s e hattr hkind
    have hsplit := split_argb_passthrough s hkind
    refine ⟨⟨_, hsplit⟩, ?_⟩
    intro hsvg
    obtain ⟨fill', op', e0, v', hres', hgeom', hpf', he⟩ := svg_path_ok_structure p d e hsvg
    have hres2 : resolve_fill p d =
        .ok (if lowerStr s = "transparent" then NO_COLOR else lowerStr s, FULL_OPACITY) := by
      unfold resolve_fill
      rw [hattr]
      exact hsplit
    rw [hres2] at hres'
    injection hres' with h1
    injection h1 with hf ho
    have hv1 : v' = ⟨1, 0⟩ := by
      rw [← ho, show pyFloat FULL_OPACITY = .ok ⟨1, 0⟩ from rfl] at hpf'
      injection hpf' with h2
      exact h2.symm
    rw [hv1, show (Dec.ltOne ⟨1, 0⟩) = false from rfl] at he
    rw [he]
    exact make_geom_no_fill_opacity p fill' e0 hgeom'

/-- A drawing with a solid brush at opacity "0.5" and an inline path. -/
def cHalfOpacityDrawing : XElem :=
  ⟨ELEM_GEOMETRY_DRAWING, [(ATTR_GEOMETRY, "F1 M0,0")],
   [⟨ELEM_GEOMETRY_DRAWING_BRUSH, [],
     [⟨ELEM_SOLID_COLOR_BRUSH, [(ATTR_COLOR, "#ff0000"), (ATTR_OPACITY, "0.5")], []⟩]⟩]⟩

/-- A drawing with an inline 6-digit hex brush and an inline path. -/
def cHexDrawing : XElem :=
  ⟨ELEM_GEOMETRY_DRAWING, [(ATTR_BRUSH, "#112233"), (ATTR_GEOMETRY, "F1 M0,0")], []⟩

/-- Witness for C8: a half-opacity brush yields the attribute, a 6-digit hex
inline fill does not. -/
theorem fill_opacity_iff_lt_one_witness :
    lookupKey (XElem.attrib ⟨"path", [("d", "M0,0"), ("fill", "#ff0000"),
        ("fill-opacity", "0.5")], []⟩) "fill-opacity" =
      (if (Dec.toRat ⟨5, 1⟩) < 1 then some "0.5" else none) ∧
    (∃ col, split_argb "#112233" = .ok (col, FULL_OPACITY)) ∧
    lookupKey (XElem.attrib ⟨"path", [("d", "M0,0"), ("fill", "#112233")], []⟩) "fill-opacity" =
      none :=
  ⟨fill_opacity_iff_lt_one.1 cHalfOpacityDrawing cDefs "#ff0000" "0.5" ⟨5, 1⟩
      ⟨"path", [("d", "M0,0"), ("fill", "#ff0000"), ("fill-opacity", "0.5")], []⟩ rfl rfl rfl,
   (fill_opacity_iff_lt_one.2 cHexDrawing cDefs "#112233"
      ⟨"path", [("d", "M0,0"), ("fill", "#112233")], []⟩ rfl (Or.inr rfl)).1,
   (fill_opacity_iff_lt_one.2 cHexDrawing cDefs "#112233"
      ⟨"path", [("d", "M0,0"), ("fill", "#112233")], []⟩ rfl (Or.inr rfl)).2 rfl⟩

/- ===== Claim C9 ===== -/

/-- The walk of an appended child list is the concatenation of the walks
(with the leftmost error winning, as in the sequential loop). -/
theorem walkList_append (l1 l2 : List XElem) (d : XElem) :
    walkList (l1 ++ l2) d =
      match walkList l1 d with
      | .error e => .error e
      | .ok r1 =>
        match walkList l2 d with
        | .error e => .error e
        | .ok r2 => .ok (r1 ++ r2) := by
  induction l1 with
  | nil => cases h : walkList l2 d <;> simp [walkList, h]
  | cons e l ih =>
    simp only [List.cons_append, walkList, List.append_eq]
    cases walk e d with
    | error err => rfl
    | ok r =>
      dsimp only
      rw [ih]
      cases walkList l d with
      | error err => rfl
      | ok rs =>
        dsimp only
        cases walkList l2 d with
        | error err => rfl
        | ok rs2 => simp

/-- Inversion of a successful walk of an appended child list. -/
theorem walkList_ok_append (l1 l2 : List XElem) (d : XElem) (rs : List XElem)
    (h : walkList (l1 ++ l2) d = .ok rs) :
    ∃ r1 r2, walkList l1 d = .ok r1 ∧ walkList l2 d = .ok r2 ∧ rs = r1 ++ r2 := by
  rw [walkList_append] at h
  cases h1 : walkList l1 d with
  | error e => rw [h1] at h; cases h
  | ok r1 =>
    rw [h1] at h
    cases h2 : walkList l2 d with
    | error e => rw [h2] at h; cases h
    | ok r2 =>
      rw [h2] at h
      injection h with h3
      exact ⟨r1, r2, rfl, rfl, h3.symm⟩

/-- A one-element child list walks to exactly the walk of that child. -/
theorem walkList_singleton (c d : XElem) : walkList [c] d = walk c d := by
  unfold walkList
  cases walk c d with
  | error e => rfl
  | ok r => simp [walkList]

/-- Claim C9: the output group produced for a DrawingGroup lists the output
fragments of its children in exactly the input traversal order: the fragment
of an earlier child appears, contiguously and in full, before the fragment of
any later child. -/
theorem walk_preserves_child_order
    (a : List (String × String)) (pre mid post : List XElem) (c c' d og : XElem)
    (h : walk ⟨ELEM_DRAWING_GROUP, a, ((pre ++ [c]) ++ mid) ++ [c'] ++ post⟩ d = .ok [og]) :
    ∃ rpre rc rmid rc' rpost,
      walkList pre d = .ok rpre ∧ walk c d = .ok rc ∧ walkList mid d = .ok rmid ∧
      walk c' d = .ok rc' ∧ walkList post d = .ok rpost ∧
      og.children = rpre ++ rc ++ rmid ++ rc' ++ rpost := by
  unfold walk at h
  rw [if_pos rfl] at h
  cases hg : svg_group (XElem.find ⟨ELEM_DRAWING_GROUP, a,
      ((pre ++ [c]) ++ mid) ++ [c'] ++ post⟩ ELEM_DRAWING_GROUP_TRANSFORM) with
  | error e => rw [hg] at h; cases h
  | ok g =>
    rw [hg] at h
    cases hw : walkList (((pre ++ [c]) ++ mid) ++ [c'] ++ post) d with
    | error e => rw [hw] at h; cases h
    | ok rs =>
      rw [hw] at h
      injection h with h1
      injection h1 with h2
      obtain ⟨r1, rpost, hw1, hpost, hrs⟩ :=
        walkList_ok_append (((pre ++ [c]) ++ mid) ++ [c']) post d rs hw
      obtain ⟨r2, rc', hw2, hc', hr1⟩ := walkList_ok_append ((pre ++ [c]) ++ mid) [c'] d r1 hw1
      obtain ⟨r3, rmid, hw3, hmid, hr2⟩ := walkList_ok_append (pre ++ [c]) mid d r2 hw2
      obtain ⟨rpre, rc, hpre, hc, hr3⟩ := walkList_ok_append pre [c] d r3 hw3
      rw [walkList_singleton] at hc hc'
      refine ⟨rpre, rc, rmid, rc', rpost, hpre, hc, hmid, hc', hpost, ?_⟩
      have hog : og = { g with children := rs } := h2.symm
      rw [hog]
      subst hrs hr1 hr2 hr3
      simp

/-- A group of two drawings used by the C9 witness. -/
def cOrderGroup : XElem :=
  ⟨ELEM_DRAWING_GROUP, [], [cPathDrawing, ⟨"ignored", [], []⟩, cHexDrawing]⟩

/-- Witness for C9: a concrete DrawingGroup with two drawings (and an ignored
element between them) keeps their outputs in input order. -/
theorem walk_preserves_child_order_witness :
    ∃ rpre rc rmid rc' rpost,
      walkList [] cDefs = .ok rpre ∧ walk cPathDrawing cDefs = .ok rc ∧
      walkList [⟨"ignored", [], []⟩] cDefs = .ok rmid ∧ walk cHexDrawing cDefs = .ok rc' ∧
      walkList [] cDefs = .ok rpost ∧
      XElem.children ⟨"g", [], [⟨"path", [("d", "M0,0 L10,10"), ("fill", "red")], []⟩,
        ⟨"path", [("d", "M0,0"), ("fill", "#112233")], []⟩]⟩ =
        rpre ++ rc ++ rmid ++ rc' ++ rpost :=
  walk_preserves_child_order [] [] [⟨"ignored", [], []⟩] [] cPathDrawing cHexDrawing cDefs
    ⟨"g", [], [⟨"path", [("d", "M0,0 L10,10"), ("fill", "red")], []⟩,
      ⟨"path", [("d", "M0,0"), ("fill", "#112233")], []⟩]⟩ rfl

/- ===== Claim C4 ===== -/

/-- Decidable equality for results, used to evaluate the finite opacity-string
check. -/
instance {ε α : Type} [DecidableEq ε] [DecidableEq α] : DecidableEq (Except ε α) := fun a b =>
  match a, b with
  | .error x, .error y =>
    if h : x = y then .isTrue (by rw [h]) else .isFalse (fun c => h (by injection c))
  | .ok x, .ok y =>
    if h : x = y then .isTrue (by rw [h]) else .isFalse (fun c => h (by injection c))
  | .error _, .ok _ => .isFalse (fun c => Except.noConfusion c)
  | .ok _, .error _ => .isFalse (fun c => Except.noConfusion c)

/-- Modelled after the claim words of C4: "rounded to 2 decimal places"
(nearest hundredth; no value in range ever sits on a tie, so the tie rule is
immaterial). -/
def spec_round2 (q : ℚ) : ℚ := (⌊q * 100 + 1 / 2⌋ : ℤ) / 100

/-- Modelled after the claim words of C4: the alpha byte scaled linearly from
0-255 to 0-1, clamped to [0, 1] and rounded to 2 decimal places. -/
def spec_opacity (alpha : ℕ) : ℚ := spec_round2 (min 1 (max 0 ((alpha : ℚ) / 255)))

/-- A hex digit value is below 16. -/
theorem hexVal_le (c : Char) (v : ℕ) (h : hexVal c = some v) : v ≤ 15 := by
  unfold hexVal at h
  split_ifs at h with h1 h2 h3 <;> (injection h with h'; omega)

/-- The function `scale` with the byte arguments of `split_argb` is plain division. -/
theorem scale_alpha (a : ℕ) (ha : a ≤ 255) : scale (a : ℚ) 255 1 = (a : ℚ) / 255 := by
  unfold scale
  by_cases h0 : (a : ℚ) = 0
  · rw [if_pos (Or.inl h0), h0]
    norm_num
  · rw [if_neg (by push_neg; exact ⟨h0, by norm_num⟩)]
    have hle : (a : ℚ) / 255 ≤ 1 := by
      rw [div_le_one (by norm_num)]
      exact_mod_cast ha
    have hge : (0 : ℚ) ≤ (a : ℚ) / 255 := by positivity
    rw [one_mul, min_eq_left hle, max_eq_right hge]

/-- The floor of `n / 255` over ℚ is natural division. -/
theorem floor_div_255 (n : ℕ) : ⌊(n : ℚ) / 255⌋ = ((n / 255 : ℕ) : ℤ) := by
  have h := Rat.floor_intCast_div_natCast (n : ℤ) 255
  have hc : (((n : ℤ) : ℚ)) = (n : ℚ) := by push_cast; ring
  have hd : (((255 : ℕ) : ℚ)) = (255 : ℚ) := by push_cast; ring
  rw [hc, hd] at h
  rw [h, Int.natCast_div]

/-- The fractional part of `n / 255` over ℚ. -/
theorem frac_div_255 (n : ℕ) :
    (n : ℚ) / 255 - ((n / 255 : ℕ) : ℤ) = ((n % 255 : ℕ) : ℚ) / 255 := by
  have hq : (255 : ℚ) * ((n / 255 : ℕ) : ℚ) + ((n % 255 : ℕ) : ℚ) = (n : ℚ) := by
    exact_mod_cast congrArg (fun m : ℕ => (m : ℚ)) (Nat.div_add_mod n 255)
  rw [Int.cast_natCast]
  field_simp
  linarith

/-- Comparing the fractional part with one half is a byte comparison. -/
theorem frac_lt_half (R : ℕ) : ((R : ℚ) / 255 < 1 / 2) ↔ 2 * R < 255 := by
  rw [div_lt_div_iff₀ (by norm_num) (by norm_num)]
  constructor
  · intro h
    have h2 : ((2 * R : ℕ) : ℚ) < ((255 : ℕ) : ℚ) := by push_cast; linarith
    exact_mod_cast h2
  · intro h
    have h2 : ((2 * R : ℕ) : ℚ) < ((255 : ℕ) : ℚ) := by exact_mod_cast h
    push_cast at h2
    linarith

theorem half_lt_frac (R : ℕ) : (1 / 2 < (R : ℚ) / 255) ↔ 255 < 2 * R := by
  rw [div_lt_div_iff₀ (by norm_num) (by norm_num)]
  constructor
  · intro h
    have h2 : ((255 : ℕ) : ℚ) < ((2 * R : ℕ) : ℚ) := by push_cast; linarith
    exact_mod_cast h2
  · intro h
    have h2 : ((255 : ℕ) : ℚ) < ((2 * R : ℕ) : ℚ) := by exact_mod_cast h
    push_cast at h2
    linarith

/-- Round-half-even of `n / 255` in integers (the odd denominator 255 makes
an exact tie impossible, so nearest rounding needs no tie rule here). -/
theorem rndHalfEven_div_255 (n : ℕ) :
    rndHalfEven ((n : ℚ) / 255) =
      ((if 2 * (n % 255) < 255 then n / 255 else n / 255 + 1 : ℕ) : ℤ) := by
  unfold rndHalfEven
  rw [floor_div_255, frac_div_255]
  by_cases hlt : 2 * (n % 255) < 255
  · rw [if_pos ((frac_lt_half (n % 255)).mpr hlt), if_pos hlt]
  · have hgt : 255 < 2 * (n % 255) := by
      rcases Nat.lt_trichotomy (2 * (n % 255)) 255 with h | h | h
      · exact absurd h hlt
      · exact absurd h (by omega)
      · exact h
    rw [if_neg (by rw [frac_lt_half]; omega), if_pos ((half_lt_frac (n % 255)).mpr hgt),
      if_neg hlt]
    push_cast
    ring

/-- The value of `round2` on a byte fraction, in integer form. -/
theorem round2_alpha (a : ℕ) : round2 ((a : ℚ) / 255) = ((alphaHundredths a : ℕ) : ℚ) / 100 := by
  unfold round2
  have hmul : ((a : ℚ) / 255) * 100 = ((100 * a : ℕ) : ℚ) / 255 := by
    push_cast
    ring
  rw [hmul, rndHalfEven_div_255, Int.cast_natCast]
  rfl

/-- Nearest rounding of `n / 255` in hundredth units, as a pure division fact
(adding half the denominator before dividing). -/
theorem nearest_div_eq (n : ℕ) :
    ((2 * n + 255 : ℕ) : ℤ) / ((510 : ℕ) : ℤ) =
      ((if 2 * (n % 255) < 255 then n / 255 else n / 255 + 1 : ℕ) : ℤ) := by
  have h : (2 * n + 255) / 510 = (if 2 * (n % 255) < 255 then n / 255 else n / 255 + 1) := by
    split <;> omega
  calc ((2 * n + 255 : ℕ) : ℤ) / ((510 : ℕ) : ℤ)
      = (((2 * n + 255) / 510 : ℕ) : ℤ) := (Int.natCast_div _ _).symm
    _ = _ := by rw [h]

/-- The claim formula in integer form: same nearest rounding. -/
theorem spec_opacity_eq (a : ℕ) (ha : a ≤ 255) :
    spec_opacity a = ((alphaHundredths a : ℕ) : ℚ) / 100 := by
  unfold spec_opacity spec_round2
  have hle : (a : ℚ) / 255 ≤ 1 := by
    rw [div_le_one (by norm_num)]
    exact_mod_cast ha
  have hge : (0 : ℚ) ≤ (a : ℚ) / 255 := by positivity
  rw [max_eq_right hge, min_eq_right hle]
  have hrw : ((a : ℚ) / 255) * 100 + 1 / 2 =
      (((2 * (100 * a) + 255 : ℕ) : ℤ) : ℚ) / (((510 : ℕ) : ℤ) : ℚ) := by
    push_cast
    field_simp
    ring
  rw [hrw, show ((((510 : ℕ) : ℤ) : ℚ)) = (((510 : ℕ) : ℚ)) from by push_cast; ring,
    Rat.floor_intCast_div_natCast, nearest_div_eq (100 * a), Int.cast_natCast]
  rfl

/-- The rounded opacity for a byte stays within [0, 100] hundredths. -/
theorem alphaHundredths_le (a : ℕ) (ha : a ≤ 255) : alphaHundredths a ≤ 100 := by
  unfold alphaHundredths
  split <;> omega

/-- The value of `decStr2` on an exact number of hundredths renders those hundredths. -/
theorem decStr2_hundredths (k : ℕ) : decStr2 ((k : ℚ) / 100) = hundredthsStr k := by
  unfold decStr2
  have h1 : ((k : ℚ) / 100) * 100 = (k : ℚ) := div_mul_cancel₀ _ (by norm_num)
  rw [h1, Rat.num_natCast, Int.toNat_natCast]

/-- Parsing back the rendered hundredths string, evaluated over all the 101
reachable values. -/
theorem pyFloat_hundredths_eval : ∀ k : Fin 101,
    pyFloat (hundredthsStr k) =
      .ok (if (k : ℕ) % 10 = 0 then ⟨(k : ℕ) / 10, 1⟩ else ⟨(k : ℕ), 2⟩) := by
  decide

/-- The rendered hundredths string parses back to the same rational. -/
theorem pyFloat_hundredths (k : ℕ) (hk : k ≤ 100) :
    ∃ dv : Dec, pyFloat (hundredthsStr k) = .ok dv ∧ dv.toRat = (k : ℚ) / 100 := by
  have h := pyFloat_hundredths_eval ⟨k, by omega⟩
  by_cases hm : k % 10 = 0
  · refine ⟨⟨(k / 10 : ℕ), 1⟩, by simpa [hm] using h, ?_⟩
    unfold Dec.toRat
    have hk10 : ((k / 10 : ℕ) : ℚ) = (k : ℚ) / 10 :=
      Rat.natCast_div k 10 (Nat.dvd_of_mod_eq_zero hm)
    rw [Int.cast_natCast, hk10, div_div]
    norm_num
  · refine ⟨⟨(k : ℕ), 2⟩, by simpa [hm] using h, ?_⟩
    unfold Dec.toRat
    rw [Int.cast_natCast]
    norm_num

/-- The opacity string written by `split_argb` parses back to exactly the
value the claim prescribes. -/
theorem opacity_value (a : ℕ) (ha : a ≤ 255) :
    ∃ dv : Dec, pyFloat (opacityStr a) = .ok dv ∧ dv.toRat = spec_opacity a := by
  by_cases h0 : a = 0
  · subst h0
    refine ⟨⟨0, 0⟩, rfl, ?_⟩
    rw [spec_opacity_eq 0 (by norm_num)]
    unfold Dec.toRat alphaHundredths
    norm_num
  · unfold opacityStr
    rw [if_neg h0, scale_alpha a ha, round2_alpha a, decStr2_hundredths]
    obtain ⟨dv, h1, h2⟩ := pyFloat_hundredths (alphaHundredths a) (alphaHundredths_le a ha)
    exact ⟨dv, h1, by rw [h2, spec_opacity_eq a ha]⟩

/-- Claim C4: for a valid 8-digit inline hex color, `split_argb` returns the
remaining six digits lowercased behind the hash, and an opacity string whose
numeric value is the alpha byte scaled linearly to [0, 1], clamped and
rounded to two decimals. -/
theorem split_argb_alpha_opacity
    (a1 a2 r1 r2 g1 g2 b1 b2 : Char) (v1 v2 : ℕ)
    (h1 : hexVal a1 = some v1) (h2 : hexVal a2 = some v2)
    (_hr1 : (hexVal r1).isSome) (_hr2 : (hexVal r2).isSome)
    (_hg1 : (hexVal g1).isSome) (_hg2 : (hexVal g2).isSome)
    (_hb1 : (hexVal b1).isSome) (_hb2 : (hexVal b2).isSome) :
    ∃ op dv,
      split_argb (String.mk ['#', a1, a2, r1, r2, g1, g2, b1, b2]) =
        .ok (String.mk ['#', r1.toLower, r2.toLower, g1.toLower, g2.toLower,
          b1.toLower, b2.toLower], op) ∧
      pyFloat op = .ok dv ∧ dv.toRat = spec_opacity (16 * v1 + v2) := by
  have hv1 := hexVal_le a1 v1 h1
  have hv2 := hexVal_le a2 v2 h2
  obtain ⟨dv, hpf, hrat⟩ := opacity_value (16 * v1 + v2) (by omega)
  refine ⟨opacityStr (16 * v1 + v2), dv, ?_, hpf, hrat⟩
  unfold split_argb
  rw [if_neg (by simp [startsHash])]
  rw [show List.take 2 (List.drop 1 ['#', a1, a2, r1, r2, g1, g2, b1, b2]) = [a1, a2] from rfl]
  simp only [hexPairVal, h1, h2]
  rfl

/-- Witness for C4: the claim example #80112233 gives color #112233 and
opacity 0.5, and an alpha byte of zero gives opacity 0. -/
theorem split_argb_alpha_opacity_witness :
    (∃ op dv, split_argb "#80112233" = .ok ("#112233", op) ∧
        pyFloat op = .ok dv ∧ dv.toRat = spec_opacity 128) ∧
    (∃ op dv, split_argb "#00aAbBcC" = .ok ("#aabbcc", op) ∧
        pyFloat op = .ok dv ∧ dv.toRat = spec_opacity 0) ∧
    spec_opacity 128 = 1 / 2 ∧ spec_opacity 0 = 0 := by
  refine ⟨split_argb_alpha_opacity '8' '0' '1' '1' '2' '2' '3' '3' 8 0
      rfl rfl rfl rfl rfl rfl rfl rfl,
    split_argb_alpha_opacity '0' '0' 'a' 'A' 'b' 'B' 'c' 'C' 0 0
      rfl rfl rfl rfl rfl rfl rfl rfl, ?_, ?_⟩
  · rw [spec_opacity_eq 128 (by norm_num)]
    norm_num [alphaHundredths]
  · rw [spec_opacity_eq 0 (by norm_num)]
    norm_num [alphaHundredths]

/- ===== Claim C10 ===== -/

/-- Reading a cons cell of the store. -/
theorem hget_cons (m : ℕ) (d : EData) (rest : Heap) (j : ℕ) :
    hget ((m, d) :: rest) j = if m = j then some d else hget rest j := by
  unfold hget
  by_cases hmj : m = j
  · simp [List.find?, hmj]
  · simp [List.find?, beq_eq_false_iff_ne.mpr hmj, hmj]

theorem hset_cons (m : ℕ) (d0 : EData) (rest : Heap) (i : ℕ) (d : EData) :
    hset ((m, d0) :: rest) i d = if m = i then (m, d) :: rest else (m, d0) :: hset rest i d :=
  rfl

/-- Updating one id leaves every other id unchanged. -/
theorem hget_hset_ne (h : Heap) (i : ℕ) (d : EData) (j : ℕ) (hne : j ≠ i) :
    hget (hset h i d) j = hget h j := by
  induction h with
  | nil => rfl
  | cons p rest ih =>
    obtain ⟨m, d0⟩ := p
    rw [hset_cons]
    by_cases hmi : m = i
    · rw [if_pos hmi, hget_cons, hget_cons, if_neg (by omega), if_neg (by omega)]
    · rw [if_neg hmi, hget_cons, hget_cons]
      by_cases hmj : m = j
      · rw [if_pos hmj, if_pos hmj]
      · rw [if_neg hmj, if_neg hmj, ih]

/-- A fresh allocation is invisible at other ids. -/
theorem hget_alloc_ne (h : Heap) (c : ℕ) (d : EData) (j : ℕ) (hne : j ≠ c) :
    hget ((c, d) :: h) j = hget h j := by
  rw [hget_cons, if_neg (by omega)]

/-- Allocation: `subElement` bumps the counter, returns the fresh id, and only touches the
parent and the fresh id. -/
theorem subElement_spec (h : Heap) (c : ℕ) (parent : ℕ) (t : String)
    (a : List (String × String)) :
    (subElement h c parent t a).2.1 = c + 1 ∧ (subElement h c parent t a).2.2 = c ∧
    (∀ j, j ≠ parent → j ≠ c → hget (subElement h c parent t a).1 j = hget h j) := by
  refine ⟨rfl, rfl, ?_⟩
  intro j hjp hjc
  unfold subElement
  dsimp only
  cases hp : hget ((c, ⟨t, a, []⟩) :: h) parent with
  | none => exact hget_alloc_ne h c _ j hjc
  | some pd =>
    rw [hget_hset_ne _ parent _ j hjp]
    exact hget_alloc_ne h c _ j hjc

/-- Setting the fill opacity only touches the given sub-element id. -/
theorem finishOpacityH_frame (h : Heap) (c : ℕ) (sid : ℕ) (op : String)
    (r : Except String Unit) (h' : Heap) (c' : ℕ)
    (he : finishOpacityH h c sid op = (r, h', c')) :
    c' = c ∧ (∀ j, j ≠ sid → hget h' j = hget h j) := by
  unfold finishOpacityH at he
  rcases hpf : pyFloat op with e | v <;> rw [hpf] at he <;> dsimp only at he
  · simp only [Prod.mk.injEq] at he
    obtain ⟨-, hh, hc⟩ := he
    subst hh
    subst hc
    exact ⟨rfl, fun j _ => rfl⟩
  · by_cases hlt : v.ltOne = true
    · rw [if_pos hlt] at he
      cases hg : hget h sid with
      | none =>
        rw [hg] at he
        simp only [Prod.mk.injEq] at he
        obtain ⟨-, hh, hc⟩ := he
        subst hh
        subst hc
        exact ⟨rfl, fun j _ => rfl⟩
      | some dd =>
        rw [hg] at he
        simp only [Prod.mk.injEq] at he
        obtain ⟨-, hh, hc⟩ := he
        subst hh
        subst hc
        exact ⟨rfl, fun j hj => hget_hset_ne h sid _ j hj⟩
    · rw [if_neg hlt] at he
      simp only [Prod.mk.injEq] at he
      obtain ⟨-, hh, hc⟩ := he
      subst hh
      subst hc
      exact ⟨rfl, fun j _ => rfl⟩

/-- The store `svg_group` only touches the output parent and fresh ids,
and the group it returns is fresh. -/
theorem svg_groupH_frame (h : Heap) (c : ℕ) (parent : ℕ) (tf? : Option ℕ)
    (r : Except String ℕ) (h' : Heap) (c' : ℕ)
    (he : svg_groupH h c parent tf? = (r, h', c')) :
    c ≤ c' ∧ (∀ j, j < c → j ≠ parent → hget h' j = hget h j) ∧
      (∀ g, r = .ok g → c ≤ g ∧ g < c') := by
  unfold svg_groupH at he
  rcases htp : transformParts h tf? with e | parts <;> rw [htp] at he
  · simp only [Prod.mk.injEq] at he
    obtain ⟨hr, hh, hc⟩ := he
    subst hh
    subst hc
    refine ⟨Nat.le_refl _, fun j _ _ => rfl, ?_⟩
    intro g hg
    rw [← hr] at hg
    cases hg
  · obtain ⟨hs1, hs2, hsfr⟩ := subElement_spec h c parent "g"
      (match parts with
       | [] => []
       | ps => [("transform", joinSpace ps)])
    cases parts with
    | nil =>
      dsimp only at he
      simp only [Prod.mk.injEq] at he
      obtain ⟨hr, hh, hc⟩ := he
      subst hr
      subst hh
      subst hc
      refine ⟨by rw [hs1]; omega, fun j hj hjp => hsfr j hjp (by omega), ?_⟩
      intro g hg
      injection hg with hg'
      subst hg'
      constructor
      · rw [hs2]
      · rw [hs2, hs1]
        omega
    | cons p ps =>
      dsimp only at he
      simp only [Prod.mk.injEq] at he
      obtain ⟨hr, hh, hc⟩ := he
      subst hr
      subst hh
      subst hc
      refine ⟨by rw [hs1]; omega, fun j hj hjp => hsfr j hjp (by omega), ?_⟩
      intro g hg
      injection hg with hg'
      subst hg'
      constructor
      · rw [hs2]
      · rw [hs2, hs1]
        omega

/-- The store `svg_path` only touches the output parent and fresh ids. -/
theorem svg_pathH_frame (h : Heap) (c : ℕ) (parent pathId : ℕ)
    (r : Except String Unit) (h' : Heap) (c' : ℕ)
    (he : svg_pathH h c parent pathId = (r, h', c')) :
    c ≤ c' ∧ (∀ j, j < c → j ≠ parent → hget h' j = hget h j) := by
  unfold svg_pathH at he
  rcases hrf : resolve_fillH h pathId with e | ⟨fill, opacity⟩ <;> rw [hrf] at he <;>
    dsimp only at he
  · simp only [Prod.mk.injEq] at he
    obtain ⟨-, hh, hc⟩ := he
    subst hh
    subst hc
    exact ⟨Nat.le_refl _, fun j _ _ => rfl⟩
  · rcases hag : hAttrGet? h pathId ATTR_GEOMETRY with _ | g <;> rw [hag] at he <;>
      dsimp only at he
    · rcases hfd : hfind h pathId ELEM_GEOMETRY_DRAWING_GEOMETRY with _ | gw <;>
        rw [hfd] at he <;> dsimp only at he
      · simp only [Prod.mk.injEq] at he
        obtain ⟨-, hh, hc⟩ := he
        subst hh
        subst hc
        exact ⟨Nat.le_refl _, fun j _ _ => rfl⟩
      · rcases hch : hchildren h gw with _ | ⟨g0, gs⟩ <;> rw [hch] at he <;> dsimp only at he
        · simp only [Prod.mk.injEq] at he
          obtain ⟨-, hh, hc⟩ := he
          subst hh
          subst hc
          exact ⟨Nat.le_refl _, fun j _ _ => rfl⟩
        · by_cases hell : htag h (match hchildren h g0 with
              | [cid] => if htag h g0 = some ELEM_GEOMETRY_GROUP then cid else g0
              | _ => g0) = some ELEM_ELLIPSE
          · rw [if_pos hell] at he
            rcases hsp : split2 (hAttrGetD h (match hchildren h g0 with
                | [cid] => if htag h g0 = some ELEM_GEOMETRY_GROUP then cid else g0
                | _ => g0) ATTR_CENTER "0,0") with e | ⟨cx, cy⟩ <;> rw [hsp] at he <;>
              dsimp only at he
            · simp only [Prod.mk.injEq] at he
              obtain ⟨-, hh, hc⟩ := he
              subst hh
              subst hc
              exact ⟨Nat.le_refl _, fun j _ _ => rfl⟩
            · obtain ⟨hs1, hs2, hsfr⟩ := subElement_spec h c parent "ellipse"
                [("cx", cx), ("cy", cy),
                 ("rx", hAttrGetD h (match hchildren h g0 with
                    | [cid] => if htag h g0 = some ELEM_GEOMETRY_GROUP then cid else g0
                    | _ => g0) ATTR_RADIUS_X "1"),
                 ("ry", hAttrGetD h (match hchildren h g0 with
                    | [cid] => if htag h g0 = some ELEM_GEOMETRY_GROUP then cid else g0
                    | _ => g0) ATTR_RADIUS_Y "1"), ("fill", fill)]
              obtain ⟨hc', hofr⟩ := finishOpacityH_frame _ _ _ _ _ _ _ he
              constructor
              · rw [hc', hs1]
                omega
              · intro j hj hjp
                rw [hofr j (by rw [hs2]; omega), hsfr j hjp (by omega)]
          · rw [if_neg hell] at he
            by_cases hrect : htag h (match hchildren h g0 with
                | [cid] => if htag h g0 = some ELEM_GEOMETRY_GROUP then cid else g0
                | _ => g0) = some ELEM_RECTANGLE
            · rw [if_pos hrect] at he
              rcases hup : strUnpack4 (hAttrGetD h (match hchildren h g0 with
                  | [cid] => if htag h g0 = some ELEM_GEOMETRY_GROUP then cid else g0
                  | _ => g0) ATTR_RECT "0,0,1,1") with e | ⟨x, y, w, ht⟩ <;>
                rw [hup] at he <;> dsimp only at he
              · simp only [Prod.mk.injEq] at he
                obtain ⟨-, hh, hc⟩ := he
                subst hh
                subst hc
                exact ⟨Nat.le_refl _, fun j _ _ => rfl⟩
              · obtain ⟨hs1, hs2, hsfr⟩ := subElement_spec h c parent "rect"
                  [("width", String.mk [w]), ("height", String.mk [ht]), ("fill", fill)]
                simp only [Prod.mk.injEq] at he
                obtain ⟨-, hh, hc⟩ := he
                subst hh
                subst hc
                constructor
                · rw [hs1]
                  omega
                · intro j hj hjp
                  exact hsfr j hjp (by omega)
            · rw [if_neg hrect] at he
              simp only [Prod.mk.injEq] at he
              obtain ⟨-, hh, hc⟩ := he
              subst hh
              subst hc
              exact ⟨Nat.le_refl _, fun j _ _ => rfl⟩
    · obtain ⟨hs1, hs2, hsfr⟩ := subElement_spec h c parent "path"
        [("d", removePre g "F1 "), ("fill", fill)]
      obtain ⟨hc', hofr⟩ := finishOpacityH_frame _ _ _ _ _ _ _ he
      constructor
      · rw [hc', hs1]
        omega
      · intro j hj hjp
        rw [hofr j (by rw [hs2]; omega), hsfr j hjp (by omega)]

/-- The frame property of the store walk: the counter never decreases, and
every id below the starting counter that is not an output parent of the
worklist reads the same after the walk as before. -/
theorem walkH_frame (fuel : ℕ) : ∀ (h : Heap) (c : ℕ) (wl : List (ℕ × ℕ)),
    c ≤ (walkH fuel h c wl).2.2 ∧
    (∀ j, j < c → (∀ pr ∈ wl, j ≠ pr.2) → hget (walkH fuel h c wl).2.1 j = hget h j) := by
  induction fuel with
  | zero => exact fun h c wl => ⟨Nat.le_refl c, fun j _ _ => rfl⟩
  | succ fuel ih =>
    intro h c wl
    match wl with
    | [] => exact ⟨Nat.le_refl c, fun j _ _ => rfl⟩
    | (inId, pId) :: rest =>
      cases htg : htag h inId with
      | none =>
        constructor
        · simp [walkH, htg]
        · intro j hj hp
          simp [walkH, htg]
      | some t =>
        by_cases ht1 : t = ELEM_DRAWING_GROUP
        · rcases hsg : svg_groupH h c pId (hfind h inId ELEM_DRAWING_GROUP_TRANSFORM)
            with ⟨r1, h1, c1⟩
          obtain ⟨hc1, hfr1, hok⟩ := svg_groupH_frame h c pId _ r1 h1 c1 hsg
          cases r1 with
          | error e =>
            have hunf : walkH (fuel + 1) h c ((inId, pId) :: rest) = (.error e, h1, c1) := by
              simp [walkH, htg, ht1, hsg]
            rw [hunf]
            refine ⟨hc1, ?_⟩
            intro j hj hp
            exact hfr1 j hj (hp (inId, pId) (List.mem_cons_self _ _))
          | ok gid =>
            obtain ⟨hgid, -⟩ := hok gid rfl
            have hunf : walkH (fuel + 1) h c ((inId, pId) :: rest) =
                walkH fuel h1 c1 ((hchildren h1 inId).map (fun k => (k, gid)) ++ rest) := by
              simp [walkH, htg, ht1, hsg]
            rw [hunf]
            obtain ⟨hc2, hfr2⟩ := ih h1 c1 ((hchildren h1 inId).map (fun k => (k, gid)) ++ rest)
            refine ⟨Nat.le_trans hc1 hc2, ?_⟩
            intro j hj hp
            have hpar : ∀ pr ∈ (hchildren h1 inId).map (fun k => (k, gid)) ++ rest,
                j ≠ pr.2 := by
              intro pr hpr
              rcases List.mem_append.mp hpr with hpr | hpr
              · obtain ⟨k, -, rfl⟩ := List.mem_map.mp hpr
                dsimp only
                omega
              · exact hp pr (List.mem_cons_of_mem _ hpr)
            rw [hfr2 j (Nat.lt_of_lt_of_le hj hc1) hpar]
            exact hfr1 j hj (hp (inId, pId) (List.mem_cons_self _ _))
        · by_cases ht2 : t = ELEM_GEOMETRY_DRAWING
          · rcases hsp : svg_pathH h c pId inId with ⟨r1, h1, c1⟩
            obtain ⟨hc1, hfr1⟩ := svg_pathH_frame h c pId inId r1 h1 c1 hsp
            cases r1 with
            | error e =>
              have hunf : walkH (fuel + 1) h c ((inId, pId) :: rest) = (.error e, h1, c1) := by
                simp [walkH, htg, ht1, ht2, hsp,
                  show ELEM_GEOMETRY_DRAWING ≠ ELEM_DRAWING_GROUP from by decide]
              rw [hunf]
              refine ⟨hc1, ?_⟩
              intro j hj hp
              exact hfr1 j hj (hp (inId, pId) (List.mem_cons_self _ _))
            | ok u =>
              have hunf : walkH (fuel + 1) h c ((inId, pId) :: rest) =
                  walkH fuel h1 c1 rest := by
                simp [walkH, htg, ht1, ht2, hsp,
                  show ELEM_GEOMETRY_DRAWING ≠ ELEM_DRAWING_GROUP from by decide]
              rw [hunf]
              obtain ⟨hc2, hfr2⟩ := ih h1 c1 rest
              refine ⟨Nat.le_trans hc1 hc2, ?_⟩
              intro j hj hp
              rw [hfr2 j (Nat.lt_of_lt_of_le hj hc1)
                (fun pr hpr => hp pr (List.mem_cons_of_mem _ hpr))]
              exact hfr1 j hj (hp (inId, pId) (List.mem_cons_self _ _))
          · have hunf : walkH (fuel + 1) h c ((inId, pId) :: rest) = walkH fuel h c rest := by
              simp [walkH, htg, ht1, ht2]
            rw [hunf]
            obtain ⟨hc2, hfr2⟩ := ih h c rest
            refine ⟨hc2, ?_⟩
            intro j hj hp
            exact hfr2 j hj (fun pr hpr => hp pr (List.mem_cons_of_mem _ hpr))

/-- Claim C10: `walk` only appends to and mutates the output tree being
built: every element of the input subtree (all of which pre-exist the walk
and are distinct from the output parent) reads back unchanged — tag,
attributes and children — after the walk. -/
theorem walk_mutates_only_output (fuel f2 : ℕ) (h : Heap) (c : ℕ) (inId pId : ℕ)
    (hin : ∀ i ∈ subtreeIds f2 h inId, i < c ∧ i ≠ pId) :
    ∀ i ∈ subtreeIds f2 h inId, hget (walkH fuel h c [(inId, pId)]).2.1 i = hget h i := by
  intro i hi
  obtain ⟨hic, hip⟩ := hin i hi
  refine (walkH_frame fuel h c [(inId, pId)]).2 i hic ?_
  intro pr hpr
  rw [List.mem_singleton] at hpr
  subst hpr
  exact hip

/-- The store for the C10 witness: id 0 is an input GeometryDrawing (inline
brush and geometry), id 1 is the output svg root; the counter starts at 2. -/
def cHeap : Heap :=
  [(0, ⟨ELEM_GEOMETRY_DRAWING, [(ATTR_BRUSH, "red"), (ATTR_GEOMETRY, "F1 M0,0")], []⟩),
   (1, ⟨"svg", [], []⟩)]

/-- Witness for C10: walking the input node 0 under output parent 1 leaves
the input node unchanged in the store. -/
theorem walk_mutates_only_output_witness :
    hget (walkH 4 cHeap 2 [(0, 1)]).2.1 0 = hget cHeap 0 :=
  walk_mutates_only_output 4 2 cHeap 2 0 1 (by decide) 0 (by decide)
